import Mathlib

/-!
Verification development for the WebsiteEvaluator repository.

The evaluation pipeline under scrutiny lives in `src/server`:
`validation.js` (validateRequest, sanitizeInput), `middleware.js`
(the `/api/evaluate` handler), and `llmService.js` (WatsonxService's
parseLLMResponse / fallbackResponseParsing / evaluateCriterion /
evaluateWebsiteWithLLM, plus the `/evaluate` endpoint's
evaluateCriterionWithRetry orchestrator).

The JavaScript dynamic values are embedded as the inductive `JSVal`
(numbers carried as `Rat`, which represents every finite decimal JSON
numeral exactly; IEEE-754 rounding of pathological numerals and lone
UTF-16 surrogates in `\u` escapes are outside the model).  Property
access on `null`/`undefined` throws a TypeError, which the embedding
returns as `Except.error`.  External effects (the Watsonx HTTP call,
`new URL`) are oracle parameters.  Timestamps (`new Date()`) are
omitted from result records; no claim mentions them.
-/

/-- JavaScript runtime values, as produced and consumed by the server code. -/
inductive JSVal where
  | undefined
  | null
  | bool (b : Bool)
  | num (q : Rat)
  | str (s : String)
  | arr (elems : List JSVal)
  | obj (fields : List (String × JSVal))

/-- JavaScript truthiness: `undefined`, `null`, `false`, `0`, `""` are falsy. -/
def jsTruthy : JSVal → Bool
  | .undefined => false
  | .null => false
  | .bool b => b
  | .num q => q ≠ 0
  | .str s => s ≠ ""
  | .arr _ => true
  | .obj _ => true

/-- JavaScript `typeof`; note `typeof null = "object"` and arrays are objects. -/
def jsTypeof : JSVal → String
  | .undefined => "undefined"
  | .null => "object"
  | .bool _ => "boolean"
  | .num _ => "number"
  | .str _ => "string"
  | .arr _ => "object"
  | .obj _ => "object"

def isNullish : JSVal → Bool
  | .null => true
  | .undefined => true
  | _ => false

/-- First-occurrence association lookup (JS objects have unique keys;
ill-formed duplicate-key `JSVal.obj` values read their first binding). -/
def lookupField (k : String) : List (String × JSVal) → Option JSVal
  | [] => none
  | (k', v) :: rest => if k' = k then some v else lookupField k rest

/-- Property read on a non-nullish base: `v[k]` as an expression; `.length`
of strings and arrays is the JS length, other missing keys are `undefined`. -/
def jsGetP (v : JSVal) (k : String) : JSVal :=
  match v with
  | .obj fields => (lookupField k fields).getD .undefined
  | .str s => if k = "length" then .num (mkRat (s.length : Int) 1) else .undefined
  | .arr xs => if k = "length" then .num (mkRat (xs.length : Int) 1) else .undefined
  | _ => .undefined

/-- Property read `v.k`, throwing the TypeError a JS engine raises when the
base is `null` or `undefined`. -/
def jsGetE (v : JSVal) (k : String) : Except String JSVal :=
  match v with
  | .null => .error ("TypeError: Cannot read properties of null (reading " ++ k ++ ")")
  | .undefined => .error ("TypeError: Cannot read properties of undefined (reading " ++ k ++ ")")
  | _ => .ok (jsGetP v k)

/-- Property write `o[k] = v`: replace the first binding of `k` in place, else
append (JS keeps the original insertion position of an existing key). -/
def setField (k : String) (v : JSVal) : List (String × JSVal) → List (String × JSVal)
  | [] => [(k, v)]
  | (k', v') :: rest => if k' = k then (k, v) :: rest else (k', v') :: setField k v rest

def objSet (o : JSVal) (k : String) (v : JSVal) : JSVal :=
  match o with
  | .obj fields => .obj (setField k v fields)
  | other => other

def containsKey (k : String) : List (String × JSVal) → Bool
  | [] => false
  | (k', _) :: rest => k' = k || containsKey k rest

/-- Object spread `{...v}`: objects copy their fields, arrays and strings
enumerate index keys, other primitives give an empty object. -/
def jsSpread (v : JSVal) : JSVal :=
  match v with
  | .obj fields => .obj fields
  | .arr xs => .obj ((xs.enum.map (fun p => (toString p.1, p.2))))
  | .str s => .obj ((s.data.enum.map (fun p => (toString p.1, JSVal.str (String.mk [p.2])))))
  | _ => .obj []

/-- `v === true` -/
def jsIsTrue : JSVal → Bool
  | .bool true => true
  | _ => false

/-- `a || b` on values: JS logical-or keeps the first operand when truthy. -/
def jsOr (a b : JSVal) : JSVal := if jsTruthy a then a else b

/-! ### String utilities (character-level, kernel-reducible) -/

/-- The whitespace set of `String.prototype.trim` and of regex `\s`,
restricted to its ASCII members (the inputs of this code are ASCII). -/
def jsWsChar (c : Char) : Bool :=
  c = ' ' || c = '\t' || c = '\n' || c = '\r' || c = '\x0b' || c = '\x0c'

def dropWhileW (p : Char → Bool) : List Char → List Char
  | [] => []
  | c :: t => if p c then dropWhileW p t else c :: t

def trimChars (l : List Char) : List Char :=
  ((dropWhileW jsWsChar ((dropWhileW jsWsChar l.reverse)).reverse))

/-- `s.trim()` -/
def jsTrim (s : String) : String := String.mk (trimChars s.data)

def upChar (c : Char) : Char :=
  if 'a' ≤ c ∧ c ≤ 'z' then Char.ofNat (c.toNat - 32) else c

/-- `s.toUpperCase()` (ASCII). -/
def jsToUpper (s : String) : String := String.mk (s.data.map upChar)

/-- `s.trim()` on a JS value: only strings carry `trim`; anything else
raises a TypeError. -/
def jsTrimE (v : JSVal) : Except String String :=
  match v with
  | .str s => .ok (jsTrim s)
  | _ => .error "TypeError: trim is not a function"

/-- `cond ? cond.trim() : ''` — the sanitizer's per-field idiom. -/
def trimOrEmpty (v : JSVal) : Except String String :=
  if jsTruthy v then jsTrimE v else .ok ""

/-- Case-insensitive literal match: consume `pat` from the front of `cs`
(ASCII case folded), returning the rest on success. -/
def matchCI : List Char → List Char → Option (List Char)
  | [], cs => some cs
  | _ :: _, [] => none
  | p :: ps, c :: cs => if upChar p = upChar c then matchCI ps cs else none

def indexOfChar (c : Char) (l : List Char) : Option Nat :=
  l.findIdx? (· = c)

def lastIndexOfChar (c : Char) (l : List Char) : Option Nat :=
  match indexOfChar c l.reverse with
  | none => none
  | some i => some (l.length - 1 - i)

/-- `s.substring(a, b)` with the usual clamping (only in-range uses occur). -/
def jsSubstring (s : String) (a b : Nat) : String :=
  String.mk ((s.data.drop a).take (b - a))

def jsSubstringFrom (s : String) (a : Nat) : String :=
  String.mk (s.data.drop a)

/-! ### JSON.parse

A fuel-indexed JSON parser following the JSON grammar accepted by
`JSON.parse`: strict numbers (no leading zeros), string escapes, no
trailing input.  Fuel `cs.length + 1` suffices since every recursive
step consumes at least one character. -/

def hexVal (c : Char) : Option Nat :=
  if '0' ≤ c ∧ c ≤ '9' then some (c.toNat - '0'.toNat)
  else if 'a' ≤ c ∧ c ≤ 'f' then some (c.toNat - 'a'.toNat + 10)
  else if 'A' ≤ c ∧ c ≤ 'F' then some (c.toNat - 'A'.toNat + 10)
  else none

def jsonWs (c : Char) : Bool := c = ' ' || c = '\t' || c = '\n' || c = '\r'

def skipJsonWs : List Char → List Char
  | [] => []
  | c :: t => if jsonWs c then skipJsonWs t else c :: t

/-- Parse the body of a JSON string literal (after the opening quote). -/
def parseJsonStr (acc : List Char) : List Char → Except Unit (String × List Char)
  | [] => .error ()
  | '"' :: rest => .ok (String.mk acc.reverse, rest)
  | '\\' :: esc => match esc with
    | '"' :: rest => parseJsonStr ('"' :: acc) rest
    | '\\' :: rest => parseJsonStr ('\\' :: acc) rest
    | '/' :: rest => parseJsonStr ('/' :: acc) rest
    | 'b' :: rest => parseJsonStr ('\x08' :: acc) rest
    | 'f' :: rest => parseJsonStr ('\x0c' :: acc) rest
    | 'n' :: rest => parseJsonStr ('\n' :: acc) rest
    | 'r' :: rest => parseJsonStr ('\r' :: acc) rest
    | 't' :: rest => parseJsonStr ('\t' :: acc) rest
    | 'u' :: h1 :: h2 :: h3 :: h4 :: rest =>
      match hexVal h1, hexVal h2, hexVal h3, hexVal h4 with
      | some a, some b, some c, some d =>
        parseJsonStr (Char.ofNat (((a * 16 + b) * 16 + c) * 16 + d) :: acc) rest
      | _, _, _, _ => .error ()
    | _ => .error ()
  | c :: rest => if c.toNat < 32 then .error () else parseJsonStr (c :: acc) rest

def takeDigits (acc : List Char) : List Char → (List Char × List Char)
  | [] => (acc.reverse, [])
  | c :: t => if c.isDigit then takeDigits (c :: acc) t else (acc.reverse, c :: t)

def digitsToNat (ds : List Char) : Nat :=
  ds.foldl (fun n c => n * 10 + (c.toNat - '0'.toNat)) 0

/-- Parse a JSON number at the front of the input into an exact rational. -/
def parseJsonNum (cs : List Char) : Except Unit (Rat × List Char) :=
  let (neg, cs₁) := match cs with
    | '-' :: t => (true, t)
    | _ => (false, cs)
  match takeDigits [] cs₁ with
  | ([], _) => .error ()
  | (d :: ds, cs₂) =>
    -- JSON forbids leading zeros: "0" is fine, "0x" digits are not.
    if d = '0' ∧ ds ≠ [] then .error () else
    let intPart : Nat := digitsToNat (d :: ds)
    let (fracDigits, cs₃) := match cs₂ with
      | '.' :: t => takeDigits [] t
      | _ => ([], cs₂)
    if cs₂ ≠ cs₃ ∧ fracDigits = [] then .error () else
    let (expNeg, expDigits, cs₄) := match cs₃ with
      | 'e' :: '-' :: t => match takeDigits [] t with | (es, r) => (true, es, r)
      | 'E' :: '-' :: t => match takeDigits [] t with | (es, r) => (true, es, r)
      | 'e' :: '+' :: t => match takeDigits [] t with | (es, r) => (false, es, r)
      | 'E' :: '+' :: t => match takeDigits [] t with | (es, r) => (false, es, r)
      | 'e' :: t => match takeDigits [] t with | (es, r) => (false, es, r)
      | 'E' :: t => match takeDigits [] t with | (es, r) => (false, es, r)
      | _ => (false, [], cs₃)
    if cs₃ ≠ cs₄ ∧ expDigits = [] then .error () else
    -- exact value as one normalized fraction (integer arithmetic only)
    let numAbs : Nat := intPart * 10 ^ fracDigits.length + digitsToNat fracDigits
    let numSigned : Int := if neg then -(numAbs : Int) else (numAbs : Int)
    let e : Nat := digitsToNat expDigits
    let q : Rat :=
      if expNeg then mkRat numSigned (10 ^ fracDigits.length * 10 ^ e)
      else mkRat (numSigned * (10 : Int) ^ e) (10 ^ fracDigits.length)
    .ok (q, cs₄)

mutual

def parseJsonVal : Nat → List Char → Except Unit (JSVal × List Char)
  | 0, _ => .error ()
  | fuel + 1, cs =>
    match skipJsonWs cs with
    | 'n' :: 'u' :: 'l' :: 'l' :: rest => .ok (.null, rest)
    | 't' :: 'r' :: 'u' :: 'e' :: rest => .ok (.bool true, rest)
    | 'f' :: 'a' :: 'l' :: 's' :: 'e' :: rest => .ok (.bool false, rest)
    | '"' :: rest =>
      match parseJsonStr [] rest with
      | .ok (s, r) => .ok (.str s, r)
      | .error _ => .error ()
    | '\x7b' :: rest =>
      (match skipJsonWs rest with
       | '\x7d' :: r => .ok (.obj [], r)
       | other => parseJsonObj fuel [] other)
    | '[' :: rest =>
      (match skipJsonWs rest with
       | ']' :: r => .ok (.arr [], r)
       | other => parseJsonArr fuel [] other)
    | c :: rest =>
      if c = '-' ∨ c.isDigit then
        match parseJsonNum (c :: rest) with
        | .ok (q, r) => .ok (.num q, r)
        | .error _ => .error ()
      else .error ()
    | [] => .error ()

def parseJsonArr : Nat → List JSVal → List Char → Except Unit (JSVal × List Char)
  | 0, _, _ => .error ()
  | fuel + 1, acc, cs =>
    match parseJsonVal fuel cs with
    | .error _ => .error ()
    | .ok (v, rest) =>
      match skipJsonWs rest with
      | ',' :: r => parseJsonArr fuel (v :: acc) r
      | ']' :: r => .ok (.arr (v :: acc).reverse, r)
      | _ => .error ()

def parseJsonObj : Nat → List (String × JSVal) → List Char → Except Unit (JSVal × List Char)
  | 0, _, _ => .error ()
  | fuel + 1, acc, cs =>
    match skipJsonWs cs with
    | '"' :: rest =>
      match parseJsonStr [] rest with
      | .error _ => .error ()
      | .ok (k, r₁) =>
        match skipJsonWs r₁ with
        | ':' :: r₂ =>
          match parseJsonVal fuel r₂ with
          | .error _ => .error ()
          | .ok (v, r₃) =>
            -- duplicate keys: last value wins, first position kept
            let acc' := if containsKey k acc then setField k v acc else (k, v) :: acc
            match skipJsonWs r₃ with
            | ',' :: r₄ => parseJsonObj fuel acc' r₄
            | '\x7d' :: r₄ => .ok (.obj acc'.reverse, r₄)
            | _ => .error ()
        | _ => .error ()
    | _ => .error ()

end

/-- `JSON.parse(s)`: one JSON value, optionally surrounded by whitespace. -/
def jsonParse (s : String) : Except Unit JSVal :=
  match parseJsonVal (s.data.length + 1) s.data with
  | .error _ => .error ()
  | .ok (v, rest) =>
    match skipJsonWs rest with
    | [] => .ok v
    | _ :: _ => .error ()

/-! ### Regex emulation

The server uses a handful of fixed regexes; each is emulated by a
character-level scanner with the engine's leftmost-match and greedy /
lazy semantics for that particular pattern. -/

/-- Case-sensitive literal match at the front of the input. -/
def matchLit : List Char → List Char → Option (List Char)
  | [], cs => some cs
  | _ :: _, [] => none
  | p :: ps, c :: cs => if p = c then matchLit ps cs else none

/-- `responseText.match(/\{[\s\S]*\}/)`: greedy, so the (sole possible) match
runs from the first `{` to the last `}`; no match when no `}` follows a `{`. -/
def braceSlice (s : String) : Option String :=
  match indexOfChar '\x7b' s.data, lastIndexOfChar '\x7d' s.data with
  | some i, some j =>
    if i < j then some (String.mk ((s.data.drop i).take (j - i + 1))) else none
  | _, _ => none

/-- Try `HIGH|MEDIUM|LOW` case-insensitively at this position (regex
alternation order), yielding the canonical uppercased token. -/
def tokAt (cs : List Char) : Option String :=
  match matchCI "HIGH".data cs with
  | some _ => some "HIGH"
  | none =>
    match matchCI "MEDIUM".data cs with
    | some _ => some "MEDIUM"
    | none =>
      match matchCI "LOW".data cs with
      | some _ => some "LOW"
      | none => none

/-- An alignment token occurs somewhere in the text (case-insensitive). -/
def containsTok : List Char → Bool
  | [] => false
  | c :: rest => (tokAt (c :: rest)).isSome || containsTok rest

/-- `/ALIGNMENT:\s*(HIGH|MEDIUM|LOW)/i` at one position: the literal marker,
greedy whitespace, then a token (the token cannot start with whitespace, so
greedy `\s*` never needs backtracking). -/
def alignAt (cs : List Char) : Option String :=
  match matchCI "ALIGNMENT:".data cs with
  | none => none
  | some r => tokAt (dropWhileW jsWsChar r)

/-- Leftmost match of the alignment regex over the whole text. -/
def alignSearch : List Char → Option String
  | [] => none
  | c :: rest =>
    match alignAt (c :: rest) with
    | some t => some t
    | none => alignSearch rest

/-- Lookahead `(?=KEY_FINDINGS|RECOMMENDATIONS|$)` of the reasoning regex. -/
def stopHere (cs : List Char) : Bool :=
  (matchCI "KEY_FINDINGS".data cs).isSome || (matchCI "RECOMMENDATIONS".data cs).isSome

/-- The lazy `([\s\S]*?)` body: shortest run up to the lookahead or the end. -/
def lazyBody : List Char → List Char
  | [] => []
  | c :: rest => if stopHere (c :: rest) then [] else c :: lazyBody rest

/-- `/REASONING:\s*([\s\S]*?)(?=KEY_FINDINGS|RECOMMENDATIONS|$)/i` at one
position, returning the captured group. -/
def reasonAt (cs : List Char) : Option (List Char) :=
  match matchCI "REASONING:".data cs with
  | none => none
  | some r => some (lazyBody (dropWhileW jsWsChar r))

def reasonSearch : List Char → Option (List Char)
  | [] => none
  | c :: rest =>
    match reasonAt (c :: rest) with
    | some g => some g
    | none => reasonSearch rest

/-- `.replace(/```json\s*/g, '')` (fuel-indexed scan; fuel `length + 1`
suffices as every step consumes at least one character). -/
def stripFenceJson : Nat → List Char → List Char
  | 0, cs => cs
  | _, [] => []
  | fuel + 1, c :: rest =>
    match matchLit "```json".data (c :: rest) with
    | some r => stripFenceJson fuel (dropWhileW jsWsChar r)
    | none => c :: stripFenceJson fuel rest

/-- `.replace(/```\s*/g, '')` -/
def stripFence : Nat → List Char → List Char
  | 0, cs => cs
  | _, [] => []
  | fuel + 1, c :: rest =>
    match matchLit "```".data (c :: rest) with
    | some r => stripFence fuel (dropWhileW jsWsChar r)
    | none => c :: stripFence fuel rest

/-- `.replace(/```json\s*|\s*```/g, '')`: the first alternative, else greedy
whitespace followed by a fence (only the maximal run can precede ```` ``` ````,
as a backtick is not whitespace), else advance one character. -/
def stripCombined : Nat → List Char → List Char
  | 0, cs => cs
  | _, [] => []
  | fuel + 1, c :: rest =>
    match matchLit "```json".data (c :: rest) with
    | some r => stripCombined fuel (dropWhileW jsWsChar r)
    | none =>
      match matchLit "```".data (dropWhileW jsWsChar (c :: rest)) with
      | some r =>
        if jsWsChar c ∨ c = '`' then stripCombined fuel r
        else c :: stripCombined fuel rest
      | none => c :: stripCombined fuel rest

/-! ### WatsonxService: parseLLMResponse / fallbackResponseParsing
(`src/server/llmService.js` lines 77-124) -/

/-- The structured result of `parseLLMResponse` (`alignment` is always a
string on the JSON path — a non-string raises in `.toUpperCase()` and
falls back — and the fallback only produces the three tokens or MEDIUM). -/
structure WParsed where
  alignment : String
  reasoning : JSVal
  keyFindings : JSVal
  recommendations : JSVal

/-- The try-block of `parseLLMResponse`: extract `{...}`, `JSON.parse` it,
require truthy `alignment` and `reasoning`, uppercase the alignment.
`none` means some step threw and control reaches the catch. -/
def parseLLMResponseJson (responseText : String) : Option WParsed :=
  match braceSlice responseText with
  | none => none
  | some sub =>
    match jsonParse sub with
    | .error _ => none
    | .ok parsed =>
      let al := jsGetP parsed "alignment"
      let re := jsGetP parsed "reasoning"
      if jsTruthy al ∧ jsTruthy re then
        match al with
        | .str s =>
          some ⟨jsToUpper s, re, jsOr (jsGetP parsed "keyFindings") (.arr []),
                jsOr (jsGetP parsed "recommendations") (.arr [])⟩
        | _ => none
      else none

/-- `fallbackResponseParsing` (lines 109-124). -/
def fallbackResponseParsing (responseText : String) : WParsed :=
  let alignment := (alignSearch responseText.data).getD "MEDIUM"
  let reasoning : JSVal :=
    match reasonSearch responseText.data with
    | some g => .str (String.mk (trimChars g))
    | none => .str (jsSubstring responseText 0 500 ++ "...")
  ⟨alignment, reasoning, .arr [], .arr []⟩

/-- `parseLLMResponse` (lines 77-107): strict JSON path, else fallback. -/
def parseLLMResponse (responseText : String) : WParsed :=
  match parseLLMResponseJson responseText with
  | some p => p
  | none => fallbackResponseParsing responseText

/-! ### Data model of the orchestrators -/

structure PageSection where
  selector : String
  title : String
  content : String

structure Criterion where
  id : String
  name : String
  definition : Option String

/-- `generateEvaluationPrompt` (lines 16-44). -/
def generateEvaluationPrompt (criterion : Criterion) (sections : List PageSection) : String :=
  let sectionsText := String.intercalate "\n\n"
    (sections.map (fun s => "Section: " ++ s.title ++ "\nContent: " ++ s.content ++ "\n---"))
  "You are an expert website evaluator. Please evaluate the following website content against the criterion: \"" ++
  criterion.name ++ "\".\n\nCriterion Definition: " ++
  (criterion.definition.getD "No specific definition provided") ++
  "\n\nWebsite Content to Evaluate:\n" ++ sectionsText ++
  "\n\nPlease provide a comprehensive evaluation with the following structure:\n\n" ++
  "1. ALIGNMENT: Rate the alignment as HIGH, MEDIUM, or LOW\n" ++
  "2. REASONING: Provide detailed reasoning for your assessment\n" ++
  "3. KEY_FINDINGS: List 2-3 key findings that support your rating\n" ++
  "4. RECOMMENDATIONS: Suggest 1-2 specific improvements if applicable\n\n" ++
  "Format your response as JSON:\n\x7b\n  \"alignment\": \"HIGH|MEDIUM|LOW\",\n" ++
  "  \"reasoning\": \"Detailed explanation...\",\n" ++
  "  \"keyFindings\": [\"Finding 1\", \"Finding 2\"],\n" ++
  "  \"recommendations\": [\"Recommendation 1\", \"Recommendation 2\"]\n\x7d\n\n" ++
  "Focus on how well the content aligns with the specific criterion requirements. Be objective and evidence-based in your assessment."

/-- `WatsonxService.evaluateCriterion` (lines 126-163).  The oracle `llm`
models `callWatsonxAPI` plus the `generated_text` shape check: `.ok text`
is a transport success carrying the generated text, `.error e` any thrown
error's message.  The catch returns the documented fallback evaluation. -/
def evaluateCriterion (llm : String → Except String String) (criterion : Criterion)
    (sections : List PageSection) : WParsed :=
  match llm (generateEvaluationPrompt criterion sections) with
  | .ok text => parseLLMResponse text
  | .error e =>
    ⟨"MEDIUM",
     .str ("Evaluation failed for " ++ criterion.name ++ ": " ++ e ++
       ". Please try again or contact support."),
     .arr [], .arr []⟩

/-- One element of `results` in `evaluateWebsiteWithLLM` (lines 183-194;
`evaluatedAt` timestamps omitted from the model). -/
structure WResult where
  criterionId : String
  name : String
  status : String
  alignment : String
  reasoning : JSVal
  selectedSections : List String
  contentAnalyzed : String
  definition : Option String
  keyFindings : JSVal
  recommendations : JSVal

/-- `evaluateWebsiteWithLLM` (lines 166-228): a sequential loop pushing one
result per criterion.  Its catch branch (lines 200-219) is unreachable in
the model because `evaluateCriterion` handles every failure internally. -/
def evaluateWebsiteWithLLM (llm : String → Except String String)
    (selectedSections : List PageSection) (criteria : List Criterion) : List WResult :=
  criteria.map (fun criterion =>
    let evaluation := evaluateCriterion llm criterion selectedSections
    { criterionId := criterion.id, name := criterion.name, status := "na",
      alignment := evaluation.alignment, reasoning := evaluation.reasoning,
      selectedSections := selectedSections.map (·.title),
      contentAnalyzed := String.intercalate "\n\n---\n\n" (selectedSections.map (·.content)),
      definition := criterion.definition,
      keyFindings := evaluation.keyFindings, recommendations := evaluation.recommendations })

/-! ### The `/evaluate` retry orchestrator
(`src/server/llmService.js` lines 897-1020) -/

/-- The JSON-extraction step of the retry loop's parse fallback
(lines 937-952): strip fences, cut before the first `{` (only when its
index is strictly positive) and after the last `}` (only when its index
is strictly positive and not already last). -/
def retryExtract (llmResponse : String) : String :=
  let jsonText := String.mk
    (stripFence (llmResponse.data.length + 1)
      (stripFenceJson (llmResponse.data.length + 1) llmResponse.data))
  let afterStart :=
    match indexOfChar '\x7b' jsonText.data with
    | some i => if i > 0 then jsSubstringFrom jsonText i else jsonText
    | none => jsonText
  match lastIndexOfChar '\x7d' afterStart.data with
  | some j =>
    if j > 0 ∧ j < afterStart.data.length - 1 then jsSubstring afterStart 0 (j + 1)
    else afterStart
  | none => afterStart

/-- Tiers 1-2 of the retry loop's response parsing: direct `JSON.parse`,
else `JSON.parse` of the extracted slice; `none` when both throw. -/
def retryParseCore (llmResponse : String) : Option JSVal :=
  match jsonParse llmResponse with
  | .ok v => some v
  | .error _ =>
    match jsonParse (retryExtract llmResponse) with
    | .ok v => some v
    | .error _ => none

/-- The structured fallback object of lines 960-964 (alignment defaulted
to `'HIGH'`, raw response kept as reasoning). -/
def retryDefault (llmResponse : String) : JSVal :=
  .obj [("alignment", .str "HIGH"),
        ("reasoning", .str (jsTrim (String.mk
          (stripCombined (llmResponse.data.length + 1) llmResponse.data)))),
        ("keyInsights", .arr [.str "Content analyzed successfully",
                              .str "LLM evaluation completed"])]

/-- `parsedResponse` as computed by lines 929-966. -/
def retryParse (llmResponse : String) : JSVal :=
  match retryParseCore llmResponse with
  | some v => v
  | none => retryDefault llmResponse

/-- The prompt template of lines 905-924 (template-literal indentation
preserved). -/
def buildRetryPrompt (criterion : Criterion) (sections : List PageSection)
    (websiteUrl : String) : String :=
  let sectionsText := String.intercalate "\n\n"
    (sections.map (fun s => s.title ++ ": " ++ jsSubstring s.content 0 200 ++ "..."))
  "Evaluate the following website content against the criterion: \"" ++ criterion.name ++
  "\"\n\n          Criterion Definition: " ++ (criterion.definition.getD "No definition provided") ++
  "\n\n          Website URL: " ++ websiteUrl ++
  "\n\n          Selected Content Sections:\n          " ++ sectionsText ++
  "\n\n          Please provide your evaluation in the following JSON format ONLY (no additional text before or after):\n\n" ++
  "          \x7b\n            \"alignment\": \"HIGH|MEDIUM|LOW\",\n" ++
  "            \"reasoning\": \"Your detailed reasoning here\",\n" ++
  "            \"keyInsights\": [\"insight1\", \"insight2\", \"insight3\"]\n          \x7d\n\n" ++
  "          Important: Return ONLY valid JSON, no markdown formatting or additional text."

/-- One result of the retry orchestrator (lines 970-981 and 999-1011;
`evaluatedAt` omitted). -/
structure RetryResult where
  criterionId : String
  name : String
  status : String
  alignment : JSVal
  reasoning : JSVal
  selectedSections : List String
  contentAnalyzed : String
  keyInsights : JSVal
  attempts : Nat
  lastError : Option String

/-- The body of one `for` iteration of `evaluateCriterionWithRetry`
(lines 901-982).  The oracle `llm` maps the attempt index and prompt to
the transport outcome of `generateTextWithLLM`.  When the parsed response
is `null`, reading `.alignment` raises a TypeError inside the `try`, so
the attempt fails like a transport error. -/
def retryAttempt (criterion : Criterion) (sections : List PageSection) (websiteUrl : String)
    (llm : Nat → String → Except String String) (attempt : Nat) : Except String RetryResult :=
  match llm attempt (buildRetryPrompt criterion sections websiteUrl) with
  | .error e => .error e
  | .ok llmResponse =>
    let parsedResponse := retryParse llmResponse
    match jsGetE parsedResponse "alignment" with
    | .error e => .error e
    | .ok al =>
      .ok { criterionId := criterion.id, name := criterion.name, status := "completed",
            alignment := jsOr al (.str "HIGH"),
            reasoning := jsOr (jsGetP parsedResponse "reasoning") (.str "LLM evaluation completed"),
            selectedSections := sections.map (·.title),
            contentAnalyzed := String.intercalate "\n\n---\n\n" (sections.map (·.content)),
            keyInsights := jsOr (jsGetP parsedResponse "keyInsights") (.arr []),
            attempts := attempt + 1, lastError := none }

/-- The exhaustion result of lines 999-1011. -/
def retryExhausted (criterion : Criterion) (sections : List PageSection)
    (maxRetries : Nat) (e : String) : RetryResult :=
  { criterionId := criterion.id, name := criterion.name, status := "error",
    alignment := .str "MEDIUM",
    reasoning := .str ("Evaluation failed after " ++ toString (maxRetries + 1) ++
      " attempts. Last error: " ++ e ++ ". Using fallback analysis."),
    selectedSections := sections.map (·.title),
    contentAnalyzed := String.intercalate "\n\n---\n\n" (sections.map (·.content)),
    keyInsights := .arr [.str ("Fallback evaluation used after " ++ toString (maxRetries + 1) ++
      " failed attempts")],
    attempts := maxRetries + 1, lastError := some e }

/-- The retry loop: `attempt` is the current index, `remaining` how many
later attempts are left (backoff sleeps have no observable effect). -/
def retryGo (criterion : Criterion) (sections : List PageSection) (websiteUrl : String)
    (llm : Nat → String → Except String String) (maxRetries : Nat) :
    Nat → Nat → RetryResult
  | attempt, remaining =>
    match retryAttempt criterion sections websiteUrl llm attempt, remaining with
    | .ok r, _ => r
    | .error e, 0 => retryExhausted criterion sections maxRetries e
    | .error _, n + 1 => retryGo criterion sections websiteUrl llm maxRetries (attempt + 1) n

/-- `evaluateCriterionWithRetry` (lines 897-1012), default `maxRetries = 2`. -/
def evaluateCriterionWithRetry (criterion : Criterion) (sections : List PageSection)
    (websiteUrl : String) (llm : Nat → String → Except String String)
    (maxRetries : Nat := 2) : RetryResult :=
  retryGo criterion sections websiteUrl llm maxRetries 0 maxRetries

/-- The orchestrator loop of lines 1014-1020: one retry evaluation per
criterion, accumulated in order. -/
def runRetryBatch (llm : Criterion → Nat → String → Except String String)
    (sections : List PageSection) (websiteUrl : String)
    (criteria : List Criterion) : List RetryResult :=
  criteria.map (fun c => evaluateCriterionWithRetry c sections websiteUrl (llm c))

/-! ### Request validation (`src/server/validation.js` lines 3-102)

`validateRequest` is embedded in `Except String`: the function body can
throw — `section.content.length` (line 52) and `section.content` in the
reduce (line 89) dereference possibly-`undefined`/`null` values — and a
thrown TypeError propagates to the endpoint's catch.  The environment
configuration (`MAX_SECTIONS_PER_REQUEST`, `MAX_CONTENT_LENGTH` with
their defaults) is a `Config` parameter, and `new URL` validity is the
oracle `isURL`. -/

structure Config where
  maxSections : Nat := 10
  maxContentLength : Nat := 50000

structure VOut where
  isValid : Bool
  errors : List String
deriving DecidableEq, Repr

/-- Both return sites set `isValid` to `errors.length === 0` (at the early
return the list is the nonempty singleton, so the explicit `false` there
coincides). -/
def mkVOut (errors : List String) : VOut := ⟨errors.isEmpty, errors⟩

/-- `!x || typeof x !== 'string'` fails exactly on truthy strings. -/
def isReqString : JSVal → Bool
  | .str s => s ≠ ""
  | _ => false

def isUndefV : JSVal → Bool
  | .undefined => true
  | _ => false

/-- Addition of exact rationals through `mkRat` (definitionally reducible,
unlike `Rat.add`). -/
def ratAdd (a b : Rat) : Rat :=
  mkRat (a.num * (b.den : Int) + b.num * (a.den : Int)) (a.den * b.den)

def natRat (m : Nat) : Rat := mkRat (m : Int) 1

/-- `v > m` for a JS comparison against a number: only numbers compare;
`undefined > m` is `NaN > m`, false. -/
def jsGTnat (v : JSVal) (m : Nat) : Bool :=
  match v with
  | .num q => natRat m < q
  | _ => false

/-- Per-section checks of the `forEach` body (lines 32-55).  The final
length check dereferences `section.content.length` unguarded, so a
missing or `null` content throws. -/
def sectionErrs (cfg : Config) (i : Nat) (sec : JSVal) : Except String (List String) :=
  if ¬(jsTruthy sec ∧ jsTypeof sec = "object") then
    .ok ["selectedSections[" ++ toString i ++ "] must be an object"]
  else
    let e₁ := if isReqString (jsGetP sec "selector") then []
      else ["selectedSections[" ++ toString i ++ "].selector is required and must be a string"]
    let e₂ := if isReqString (jsGetP sec "title") then []
      else ["selectedSections[" ++ toString i ++ "].title is required and must be a string"]
    let e₃ := if isReqString (jsGetP sec "content") then []
      else ["selectedSections[" ++ toString i ++ "].content is required and must be a string"]
    match jsGetE (jsGetP sec "content") "length" with
    | .error e => .error e
    | .ok lenv =>
      let e₄ := if jsGTnat lenv cfg.maxContentLength then
        ["selectedSections[" ++ toString i ++ "].content exceeds maximum length of " ++
          toString cfg.maxContentLength ++ " characters"]
        else []
      .ok (e₁ ++ e₂ ++ e₃ ++ e₄)

def sectionsErrs (cfg : Config) : Nat → List JSVal → Except String (List String)
  | _, [] => .ok []
  | i, s :: rest =>
    match sectionErrs cfg i s with
    | .error e => .error e
    | .ok e =>
      match sectionsErrs cfg (i + 1) rest with
      | .error e' => .error e'
      | .ok es => .ok (e ++ es)

/-- Per-criterion checks of lines 62-83 (no unguarded dereference here). -/
def criterionErrs (i : Nat) (c : JSVal) : List String :=
  if ¬(jsTruthy c ∧ jsTypeof c = "object") then
    ["criteria[" ++ toString i ++ "] must be an object"]
  else
    (if isReqString (jsGetP c "id") then []
     else ["criteria[" ++ toString i ++ "].id is required and must be a string"]) ++
    (if isReqString (jsGetP c "name") then []
     else ["criteria[" ++ toString i ++ "].name is required and must be a string"]) ++
    (if jsTruthy (jsGetP c "definition") ∧ jsTypeof (jsGetP c "definition") ≠ "string" then
      ["criteria[" ++ toString i ++ "].definition must be a string if provided"]
     else []) ++
    (if ¬ isUndefV (jsGetP c "selected") ∧ jsTypeof (jsGetP c "selected") ≠ "boolean" then
      ["criteria[" ++ toString i ++ "].selected must be a boolean if provided"]
     else [])

def criteriaErrs : Nat → List JSVal → List String
  | _, [] => []
  | i, c :: rest => criterionErrs i c ++ criteriaErrs (i + 1) rest

/-- The accumulator of the total-length `reduce` (lines 88-90).  JS `+`
leaves the number lane when an operand is a string (concatenation) or
`undefined` (NaN); both only arise from pathological `length` fields. -/
inductive JsAcc where
  | nan
  | n (q : Rat)
  | s (str : String)

/-- JS number rendering, exact for the integers that occur here (the
decimal rendering of a non-integer is approximated by `num/den`). -/
def jsNumToString (q : Rat) : String :=
  if q.den = 1 then toString q.num else toString q.num ++ "/" ++ toString q.den

mutual

def jsSize : JSVal → Nat
  | .arr xs => 1 + jsSizeList xs
  | .obj fs => 1 + jsSizeFields fs
  | _ => 1

def jsSizeList : List JSVal → Nat
  | [] => 0
  | v :: rest => jsSize v + jsSizeList rest

def jsSizeFields : List (String × JSVal) → Nat
  | [] => 0
  | (_, v) :: rest => jsSize v + jsSizeFields rest

end

/-- `String(v)` for array elements and concatenation (depth-fueled for the
nested-array join; `jsSize` bounds the depth). -/
def jsDisplay : Nat → JSVal → String
  | _, .undefined => "undefined"
  | _, .null => "null"
  | _, .bool b => if b then "true" else "false"
  | _, .num q => jsNumToString q
  | _, .str s => s
  | 0, .arr _ => ""
  | fuel + 1, .arr xs =>
    String.intercalate "," (xs.map (fun v =>
      match v with
      | .null => ""
      | .undefined => ""
      | w => jsDisplay fuel w))
  | _, .obj _ => "[object Object]"

def accStrCat (acc : JsAcc) (s : String) : JsAcc :=
  match acc with
  | .n q => .s (jsNumToString q ++ s)
  | .s a => .s (a ++ s)
  | .nan => .s ("NaN" ++ s)

def accNumAdd (acc : JsAcc) (q : Rat) : JsAcc :=
  match acc with
  | .n a => .n (ratAdd a q)
  | .s a => .s (a ++ jsNumToString q)
  | .nan => .nan

/-- `total + v` under JS `+` semantics. -/
def jsAccAdd (acc : JsAcc) (v : JSVal) : JsAcc :=
  match v with
  | .str s => accStrCat acc s
  | .arr xs => accStrCat acc (jsDisplay (jsSize (JSVal.arr xs)) (.arr xs))
  | .obj _ => accStrCat acc "[object Object]"
  | .num q => accNumAdd acc q
  | .bool b => accNumAdd acc (if b then 1 else 0)
  | .null => accNumAdd acc 0
  | .undefined => match acc with
    | .s a => .s (a ++ "undefined")
    | _ => .nan

/-- The `reduce` of lines 88-90: `section.content` throws on a nullish
section; a falsy content contributes `0`. -/
def totalAcc : JsAcc → List JSVal → Except String JsAcc
  | acc, [] => .ok acc
  | acc, sec :: rest =>
    match jsGetE sec "content" with
    | .error e => .error e
    | .ok contentv =>
      totalAcc (if jsTruthy contentv then jsAccAdd acc (jsGetP contentv "length")
        else jsAccAdd acc (.num 0)) rest

/-- Decimal string-to-number coercion used when a (pathological) string
total is compared (`Number(s)`; hex forms unmodeled). -/
def parseDecTail (neg : Bool) (cs : List Char) : Option Rat :=
  match takeDigits [] cs with
  | ([], _) => none
  | (d :: ds, cs₂) =>
    let intPart : Nat := digitsToNat (d :: ds)
    let (fracDigits, cs₃) := match cs₂ with
      | '.' :: t => takeDigits [] t
      | _ => ([], cs₂)
    let (expNeg, expDigits, cs₄) := match cs₃ with
      | 'e' :: '-' :: t => (match takeDigits [] t with | (es, r) => (true, es, r))
      | 'E' :: '-' :: t => (match takeDigits [] t with | (es, r) => (true, es, r))
      | 'e' :: '+' :: t => (match takeDigits [] t with | (es, r) => (false, es, r))
      | 'E' :: '+' :: t => (match takeDigits [] t with | (es, r) => (false, es, r))
      | 'e' :: t => (match takeDigits [] t with | (es, r) => (false, es, r))
      | 'E' :: t => (match takeDigits [] t with | (es, r) => (false, es, r))
      | _ => (false, [], cs₃)
    if cs₄ ≠ [] then none else
    let numAbs : Nat := intPart * 10 ^ fracDigits.length + digitsToNat fracDigits
    let numSigned : Int := if neg then -(numAbs : Int) else (numAbs : Int)
    let e : Nat := digitsToNat expDigits
    some (if expNeg then mkRat numSigned (10 ^ fracDigits.length * 10 ^ e)
      else mkRat (numSigned * (10 : Int) ^ e) (10 ^ fracDigits.length))

def jsStringToNumber (s : String) : Option Rat :=
  match trimChars s.data with
  | [] => some 0
  | '+' :: r => parseDecTail false r
  | '-' :: r => parseDecTail true r
  | r => parseDecTail false r

def jsAccGT (acc : JsAcc) (m : Nat) : Bool :=
  match acc with
  | .n q => natRat m < q
  | .s s => match jsStringToNumber s with
    | some q => natRat m < q
    | none => false
  | .nan => false

def jsAccDisplay : JsAcc → String
  | .n q => jsNumToString q
  | .s s => s
  | .nan => "NaN"

/-- The websiteUrl checks (lines 13-21). -/
def urlBlock (isURL : String → Bool) (w : JSVal) : List String :=
  match w with
  | .str s =>
    if s ≠ "" then (if isURL s then [] else ["websiteUrl must be a valid URL"])
    else ["websiteUrl is required and must be a string"]
  | _ => ["websiteUrl is required and must be a string"]

/-- The selectedSections checks (lines 24-56). -/
def selSectionsBlock (cfg : Config) (ss : JSVal) : Except String (List String) :=
  match ss with
  | .arr xs =>
    if xs.length = 0 then .ok ["selectedSections is required and must be a non-empty array"]
    else
      (match sectionsErrs cfg 0 xs with
       | .error e => .error e
       | .ok es =>
         .ok ((if xs.length > cfg.maxSections then
           ["selectedSections cannot exceed " ++ toString cfg.maxSections ++ " sections"]
           else []) ++ es))
  | _ => .ok ["selectedSections is required and must be a non-empty array"]

/-- The criteria checks (lines 59-84). -/
def criteriaBlock (crits : JSVal) : List String :=
  match crits with
  | .arr cs =>
    if cs.length = 0 then ["criteria is required and must be a non-empty array"]
    else criteriaErrs 0 cs
  | _ => ["criteria is required and must be a non-empty array"]

/-- The total-content-length check (lines 87-96). -/
def totalBlock (cfg : Config) (ss : JSVal) : Except String (List String) :=
  match ss with
  | .arr xs =>
    (match totalAcc (.n 0) xs with
     | .error e => .error e
     | .ok acc =>
       .ok (if jsAccGT acc cfg.maxContentLength then
         ["Total content length (" ++ jsAccDisplay acc ++ ") exceeds maximum allowed (" ++
           toString cfg.maxContentLength ++ ")"]
         else []))
  | _ => .ok ([] : List String)

/-- `validateRequest` (lines 3-102), assembled from the blocks above in
source order (url checks, sections loop, criteria loop, total length);
the two blocks embedding a possible TypeError sequence in `Except`. -/
def validateRequest (cfg : Config) (isURL : String → Bool) (body : JSVal) :
    Except String VOut :=
  if ¬(jsTruthy body ∧ jsTypeof body = "object") then
    .ok (mkVOut ["Request body is required and must be an object"])
  else
    match selSectionsBlock cfg (jsGetP body "selectedSections") with
    | .error e => .error e
    | .ok secErrs =>
      match totalBlock cfg (jsGetP body "selectedSections") with
      | .error e => .error e
      | .ok totErrs =>
        .ok (mkVOut (urlBlock isURL (jsGetP body "websiteUrl") ++ secErrs ++
          criteriaBlock (jsGetP body "criteria") ++ totErrs))

/-! ### Input sanitization (`src/server/validation.js` lines 104-132) -/

/-- One mapped section: `{selector: s.selector ? s.selector.trim() : '', ...}`
(a nullish section or a truthy non-string field throws, as in JS). -/
def sanitizeSection (sec : JSVal) : Except String JSVal :=
  match jsGetE sec "selector" with
  | .error e => .error e
  | .ok selv =>
    match trimOrEmpty selv with
    | .error e => .error e
    | .ok sel =>
      match jsGetE sec "title" with
      | .error e => .error e
      | .ok titv =>
        match trimOrEmpty titv with
        | .error e => .error e
        | .ok tit =>
          match jsGetE sec "content" with
          | .error e => .error e
          | .ok conv =>
            match trimOrEmpty conv with
            | .error e => .error e
            | .ok con =>
              .ok (.obj [("selector", .str sel), ("title", .str tit), ("content", .str con)])

/-- One mapped criterion, with `selected: criterion.selected === true`. -/
def sanitizeCriterion (c : JSVal) : Except String JSVal :=
  match jsGetE c "id" with
  | .error e => .error e
  | .ok idv =>
    match trimOrEmpty idv with
    | .error e => .error e
    | .ok idt =>
      match jsGetE c "name" with
      | .error e => .error e
      | .ok nv =>
        match trimOrEmpty nv with
        | .error e => .error e
        | .ok nm =>
          match jsGetE c "definition" with
          | .error e => .error e
          | .ok dv =>
            match trimOrEmpty dv with
            | .error e => .error e
            | .ok df =>
              match jsGetE c "selected" with
              | .error e => .error e
              | .ok sv =>
                .ok (.obj [("id", .str idt), ("name", .str nm), ("definition", .str df),
                           ("selected", .bool (jsIsTrue sv))])

def mapExcept (f : JSVal → Except String JSVal) : List JSVal → Except String (List JSVal)
  | [] => .ok []
  | x :: rest =>
    match f x with
    | .error e => .error e
    | .ok y =>
      match mapExcept f rest with
      | .error e => .error e
      | .ok ys => .ok (y :: ys)

/-- `if (sanitized.websiteUrl) sanitized.websiteUrl = sanitized.websiteUrl.trim()` -/
def sanitizeUrlStep (s : JSVal) : Except String JSVal :=
  if jsTruthy (jsGetP s "websiteUrl") then
    match jsTrimE (jsGetP s "websiteUrl") with
    | .error e => .error e
    | .ok t => .ok (objSet s "websiteUrl" (.str t))
  else .ok s

/-- `if (Array.isArray(sanitized.selectedSections)) sanitized.selectedSections = ...map(...)` -/
def sanitizeSectionsStep (s : JSVal) : Except String JSVal :=
  match jsGetP s "selectedSections" with
  | .arr xs =>
    (match mapExcept sanitizeSection xs with
     | .error e => .error e
     | .ok ys => .ok (objSet s "selectedSections" (.arr ys)))
  | _ => .ok s

/-- `if (Array.isArray(sanitized.criteria)) sanitized.criteria = ...map(...)` -/
def sanitizeCriteriaStep (s : JSVal) : Except String JSVal :=
  match jsGetP s "criteria" with
  | .arr cs =>
    (match mapExcept sanitizeCriterion cs with
     | .error e => .error e
     | .ok ys => .ok (objSet s "criteria" (.arr ys)))
  | _ => .ok s

/-- `sanitizeInput` (lines 104-132): spread-copy, then overwrite
`websiteUrl`, `selectedSections` and `criteria` in source order. -/
def sanitizeInput (body : JSVal) : Except String JSVal :=
  match sanitizeUrlStep (jsSpread body) with
  | .error e => .error e
  | .ok s₁ =>
    match sanitizeSectionsStep s₁ with
    | .error e => .error e
    | .ok s₂ => sanitizeCriteriaStep s₂

/-! ### The `/api/evaluate` handler (`src/server/middleware.js` lines 58-108)

`evalOutcome` abstracts `evaluateWebsiteWithLLM`'s success or thrown
error; `llmReached` records whether control ever entered it.  A throw
anywhere inside the `try` is answered with a 500 by the catch. -/

structure HandlerResponse where
  status : Nat
  details : List String
  llmReached : Bool
deriving DecidableEq, Repr

def handleEvaluate (cfg : Config) (isURL : String → Bool)
    (evalOutcome : Except String Unit) (body : JSVal) : HandlerResponse :=
  match validateRequest cfg isURL body with
  | .error _ => ⟨500, [], false⟩
  | .ok v =>
    if v.isValid then
      match sanitizeInput body with
      | .error _ => ⟨500, [], false⟩
      | .ok _ =>
        match evalOutcome with
        | .ok _ => ⟨200, [], true⟩
        | .error _ => ⟨500, [], true⟩
    else ⟨400, v.errors, false⟩

/-! ### Concrete fixtures used in the theorems below -/

/-- A URL-validity oracle accepting everything (matching the fact that the
concrete URLs used below are accepted by `new URL`). -/
def uTrue : String → Bool := fun _ => true

def cfgDefault : Config := {}

/-- A small configured maximum, for exercising the length ceiling. -/
def cfgSmall : Config := { maxContentLength := 3 }

def critA : Criterion := ⟨"a11y", "Accessibility", none⟩

def secA : PageSection := ⟨"main", "Main", "hello world"⟩

/-- The well-formed model response of the round-trip property. -/
def rawRoundtrip : String :=
  "\x7b\"alignment\":\"HIGH\",\"reasoning\":\"x\",\"keyInsights\":[\"a\"]\x7d"

/-- A well-formed JSON response carrying an out-of-set alignment. -/
def rawBanana : String := "\x7b\"alignment\":\"banana\",\"reasoning\":\"r\"\x7d"

/-- An oracle failing the first two attempts and delivering the literal text
`null` on the third. -/
def llmNullThird : Nat → String → Except String String :=
  fun n _ => if n < 2 then .error "boom" else .ok "null"

/-- An oracle failing the first two attempts and delivering the round-trip
JSON on the third. -/
def llmOkThird : Nat → String → Except String String :=
  fun n _ => if n < 2 then .error "boom" else .ok rawRoundtrip

/-- An always-failing transport oracle. -/
def llmBoom : Nat → String → Except String String := fun _ _ => .error "boom"

def goodCritV : JSVal := .obj [("id", .str "c1"), ("name", .str "N")]

def goodSecV : JSVal :=
  .obj [("selector", .str "main"), ("title", .str "T"), ("content", .str "hello")]

/-- A valid request body. -/
def bodyOK : JSVal := .obj [("websiteUrl", .str "https://example.com"),
  ("selectedSections", .arr [goodSecV]), ("criteria", .arr [goodCritV])]

/-- A request with `selectedSections = []`. -/
def bodyEmptySS : JSVal := .obj [("websiteUrl", .str "https://example.com"),
  ("selectedSections", .arr []), ("criteria", .arr [goodCritV])]

/-- A request whose single section lacks a `content` field. -/
def bodyNoContent : JSVal := .obj [("websiteUrl", .str "https://example.com"),
  ("selectedSections", .arr [.obj [("selector", .str "main"), ("title", .str "T")]]),
  ("criteria", .arr [goodCritV])]

/-- A request violating the websiteUrl, selectedSections and criteria checks
at once. -/
def bodyMulti : JSVal := .obj [("x", .num 1)]

/-- A request whose single section's content is one space: non-empty, hence
valid, but trimmed to `""` by the sanitizer. -/
def bodyWsContent : JSVal := .obj [("websiteUrl", .str "https://example.com"),
  ("selectedSections", .arr [.obj [("selector", .str "main"), ("title", .str "T"),
    ("content", .str " ")]]),
  ("criteria", .arr [goodCritV])]

/-- A single-section request with the given content string. -/
def bodyWithContent (content : String) : JSVal :=
  .obj [("websiteUrl", .str "https://example.com"),
    ("selectedSections", .arr [.obj [("selector", .str "main"), ("title", .str "T"),
      ("content", .str content)]]),
    ("criteria", .arr [goodCritV])]

/-- The per-section safety condition under which `validateRequest` cannot
throw: no nullish section, and no truthy-object section with a nullish
`content` field. -/
def secSafe (sec : JSVal) : Bool :=
  !isNullish sec &&
    (if jsTruthy sec && (jsTypeof sec == "object") then
      !isNullish (jsGetP sec "content")
     else true)

/-- The image of `bodyWsContent` under `sanitizeInput`: the one-space
content is trimmed to the empty string. -/
def bodyWsSanitized : JSVal := .obj
  [("websiteUrl", .str "https://example.com"),
   ("selectedSections", .arr [.obj [("selector", .str "main"), ("title", .str "T"),
     ("content", .str "")]]),
   ("criteria", .arr [.obj [("id", .str "c1"), ("name", .str "N"),
     ("definition", .str ""), ("selected", .bool false)]])]

def ssSafe (ss : JSVal) : Bool :=
  match ss with
  | .arr xs => xs.all secSafe
  | _ => true

def bodySafe (body : JSVal) : Bool := ssSafe (jsGetP body "selectedSections")

/-! ## Theorems -/

theorem jsGetE_ok {v : JSVal} (k : String) (h : isNullish v = false) :
    jsGetE v k = .ok (jsGetP v k) := by
  cases v <;> simp_all [isNullish, jsGetE]

theorem retryAttempt_ok_fields {criterion : Criterion} {sections : List PageSection}
    {websiteUrl : String} {llm : Nat → String → Except String String} {attempt : Nat}
    {r : RetryResult}
    (h : retryAttempt criterion sections websiteUrl llm attempt = .ok r) :
    r.criterionId = criterion.id ∧ r.status = "completed" ∧ r.attempts = attempt + 1 := by
  unfold retryAttempt at h
  cases hl : llm attempt (buildRetryPrompt criterion sections websiteUrl) with
  | error e => rw [hl] at h; cases h
  | ok t =>
    rw [hl] at h
    dsimp only at h
    cases hg : jsGetE (retryParse t) "alignment" with
    | error e => rw [hg] at h; cases h
    | ok al =>
      rw [hg] at h
      cases h
      exact ⟨rfl, rfl, rfl⟩

theorem retryGo_criterionId (criterion : Criterion) (sections : List PageSection)
    (websiteUrl : String) (llm : Nat → String → Except String String) (maxRetries : Nat) :
    ∀ remaining attempt,
      (retryGo criterion sections websiteUrl llm maxRetries attempt remaining).criterionId =
        criterion.id := by
  intro remaining
  induction remaining with
  | zero =>
    intro attempt
    rw [retryGo.eq_def]; dsimp only
    cases h : retryAttempt criterion sections websiteUrl llm attempt with
    | ok r => exact (retryAttempt_ok_fields h).1
    | error e => rfl
  | succ n ih =>
    intro attempt
    rw [retryGo.eq_def]; dsimp only
    cases h : retryAttempt criterion sections websiteUrl llm attempt with
    | ok r => exact (retryAttempt_ok_fields h).1
    | error e => exact ih (attempt + 1)

theorem runRetryBatch_ids (llm : Criterion → Nat → String → Except String String)
    (sections : List PageSection) (websiteUrl : String) (criteria : List Criterion) :
    (runRetryBatch llm sections websiteUrl criteria).map (fun r => r.criterionId) =
      criteria.map (fun c => c.id) := by
  induction criteria with
  | nil => rfl
  | cons c rest ih =>
    simp only [runRetryBatch, List.map_cons, List.map_map] at ih ⊢
    rw [ih]
    exact congrArg₂ _ (retryGo_criterionId c sections websiteUrl (llm c) 2 2 0) rfl

theorem evaluateWebsiteWithLLM_ids (llm : String → Except String String)
    (sections : List PageSection) (criteria : List Criterion) :
    (evaluateWebsiteWithLLM llm sections criteria).map (fun r => r.criterionId) =
      criteria.map (fun c => c.id) := by
  simp only [evaluateWebsiteWithLLM, List.map_map]
  rfl

/-- C1: for every valid evaluation request with N criteria, both orchestrators
(`evaluateWebsiteWithLLM` of middleware.js's service and the `/evaluate`
retry loop) return exactly one result per input criterion, with
`results[i].criterionId` equal to the i-th criterion's id (hence each input
criterion is used exactly once, order preserved), for every oracle —
including ones where every LLM call fails. -/
theorem C1_one_result_per_criterion
    (llm : String → Except String String)
    (llmR : Criterion → Nat → String → Except String String)
    (sections : List PageSection) (websiteUrl : String) (criteria : List Criterion) :
    (evaluateWebsiteWithLLM llm sections criteria).map (fun r => r.criterionId) =
        criteria.map (fun c => c.id) ∧
    (evaluateWebsiteWithLLM llm sections criteria).length = criteria.length ∧
    (runRetryBatch llmR sections websiteUrl criteria).map (fun r => r.criterionId) =
        criteria.map (fun c => c.id) ∧
    (runRetryBatch llmR sections websiteUrl criteria).length = criteria.length := by
  refine ⟨evaluateWebsiteWithLLM_ids llm sections criteria, ?_,
    runRetryBatch_ids llmR sections websiteUrl criteria, ?_⟩
  · simp [evaluateWebsiteWithLLM]
  · simp [runRetryBatch]

/-- C8: the well-formed JSON model response
`{"alignment":"HIGH","reasoning":"x","keyInsights":["a"]}` round-trips
unchanged through the retry loop's normalization: the result carries
exactly alignment HIGH, reasoning "x", keyInsights ["a"]. -/
theorem C8_roundtrip_normalization :
    retryParse rawRoundtrip = .obj [("alignment", .str "HIGH"), ("reasoning", .str "x"),
      ("keyInsights", .arr [.str "a"])] ∧
    (evaluateCriterionWithRetry critA [secA] "https://example.com"
        (fun _ _ => .ok rawRoundtrip)).alignment = .str "HIGH" ∧
    (evaluateCriterionWithRetry critA [secA] "https://example.com"
        (fun _ _ => .ok rawRoundtrip)).reasoning = .str "x" ∧
    (evaluateCriterionWithRetry critA [secA] "https://example.com"
        (fun _ _ => .ok rawRoundtrip)).keyInsights = .arr [.str "a"] ∧
    (evaluateCriterionWithRetry critA [secA] "https://example.com"
        (fun _ _ => .ok rawRoundtrip)).status = "completed" :=
  ⟨rfl, rfl, rfl, rfl, rfl⟩

/-- C4: when all three attempts (default `max_retries = 2`) raise a transport
error, the criterion's result has status "error", alignment MEDIUM,
attempts 3, and a reasoning string containing the last error's message;
and the batch loop still produces one result per criterion of the batch. -/
theorem C4_retry_exhaustion
    (criterion : Criterion) (sections : List PageSection) (websiteUrl : String)
    (llm : Nat → String → Except String String) (e₀ e₁ e₂ : String)
    (h₀ : llm 0 (buildRetryPrompt criterion sections websiteUrl) = .error e₀)
    (h₁ : llm 1 (buildRetryPrompt criterion sections websiteUrl) = .error e₁)
    (h₂ : llm 2 (buildRetryPrompt criterion sections websiteUrl) = .error e₂) :
    (evaluateCriterionWithRetry criterion sections websiteUrl llm).status = "error" ∧
    (evaluateCriterionWithRetry criterion sections websiteUrl llm).alignment = .str "MEDIUM" ∧
    (evaluateCriterionWithRetry criterion sections websiteUrl llm).attempts = 3 ∧
    (∃ a b, (evaluateCriterionWithRetry criterion sections websiteUrl llm).reasoning =
      .str (a ++ e₂ ++ b)) ∧
    (∀ (llmB : Criterion → Nat → String → Except String String) (crits : List Criterion),
      (runRetryBatch llmB sections websiteUrl crits).map (fun r => r.criterionId) =
        crits.map (fun c => c.id)) := by
  have a₀ : retryAttempt criterion sections websiteUrl llm 0 = .error e₀ := by
    unfold retryAttempt; rw [h₀]
  have a₁ : retryAttempt criterion sections websiteUrl llm 1 = .error e₁ := by
    unfold retryAttempt; rw [h₁]
  have a₂ : retryAttempt criterion sections websiteUrl llm 2 = .error e₂ := by
    unfold retryAttempt; rw [h₂]
  have key : evaluateCriterionWithRetry criterion sections websiteUrl llm =
      retryExhausted criterion sections 2 e₂ := by
    unfold evaluateCriterionWithRetry
    rw [retryGo.eq_def]; dsimp only; rw [a₀]
    show retryGo criterion sections websiteUrl llm 2 1 1 = _
    rw [retryGo.eq_def]; dsimp only; rw [a₁]
    show retryGo criterion sections websiteUrl llm 2 2 0 = _
    rw [retryGo.eq_def]; dsimp only; rw [a₂]
  rw [key]
  refine ⟨rfl, rfl, rfl, ?_, fun llmB crits => runRetryBatch_ids llmB sections websiteUrl crits⟩
  exact ⟨"Evaluation failed after " ++ toString (2 + 1) ++ " attempts. Last error: ",
    ". Using fallback analysis.", by simp [retryExhausted, String.append_assoc]⟩

theorem C4_retry_exhaustion_witness :
    (evaluateCriterionWithRetry critA [secA] "u" llmBoom).status = "error" ∧
    (evaluateCriterionWithRetry critA [secA] "u" llmBoom).alignment = .str "MEDIUM" ∧
    (evaluateCriterionWithRetry critA [secA] "u" llmBoom).attempts = 3 ∧
    (∃ a b, (evaluateCriterionWithRetry critA [secA] "u" llmBoom).reasoning =
      .str (a ++ "boom" ++ b)) ∧
    (∀ (llmB : Criterion → Nat → String → Except String String) (crits : List Criterion),
      (runRetryBatch llmB [secA] "u" crits).map (fun r => r.criterionId) =
        crits.map (fun c => c.id)) :=
  C4_retry_exhaustion critA [secA] "u" llmBoom "boom" "boom" "boom" rfl rfl rfl

/-- C5 (amended): when the first two calls raise a transport error and the
third transport call succeeds with a body whose three-tier parse is not
nullish, the result is status "completed" with attempts = 3.  (As stated
the claim fails: a third response of literal `null` parses, but reading
`.alignment` of `null` throws inside the `try`, so the attempt still
fails — see the counterexample.) -/
theorem C5_retry_accounting
    (criterion : Criterion) (sections : List PageSection) (websiteUrl : String)
    (llm : Nat → String → Except String String) (e₀ e₁ : String) (t : String)
    (h₀ : llm 0 (buildRetryPrompt criterion sections websiteUrl) = .error e₀)
    (h₁ : llm 1 (buildRetryPrompt criterion sections websiteUrl) = .error e₁)
    (h₂ : llm 2 (buildRetryPrompt criterion sections websiteUrl) = .ok t)
    (hp : isNullish (retryParse t) = false) :
    (evaluateCriterionWithRetry criterion sections websiteUrl llm).status = "completed" ∧
    (evaluateCriterionWithRetry criterion sections websiteUrl llm).attempts = 3 := by
  have a₀ : retryAttempt criterion sections websiteUrl llm 0 = .error e₀ := by
    unfold retryAttempt; rw [h₀]
  have a₁ : retryAttempt criterion sections websiteUrl llm 1 = .error e₁ := by
    unfold retryAttempt; rw [h₁]
  have a₂ : ∃ r, retryAttempt criterion sections websiteUrl llm 2 = .ok r := by
    unfold retryAttempt
    rw [h₂]; dsimp only
    rw [jsGetE_ok "alignment" hp]
    exact ⟨_, rfl⟩
  obtain ⟨r, ha⟩ := a₂
  have hf := retryAttempt_ok_fields ha
  have key : evaluateCriterionWithRetry criterion sections websiteUrl llm = r := by
    unfold evaluateCriterionWithRetry
    rw [retryGo.eq_def]; dsimp only; rw [a₀]
    show retryGo criterion sections websiteUrl llm 2 1 1 = _
    rw [retryGo.eq_def]; dsimp only; rw [a₁]
    show retryGo criterion sections websiteUrl llm 2 2 0 = _
    rw [retryGo.eq_def]; dsimp only; rw [ha]
  rw [key]
  exact ⟨hf.2.1, hf.2.2⟩

theorem C5_retry_accounting_witness :
    (evaluateCriterionWithRetry critA [secA] "u" llmOkThird).status = "completed" ∧
    (evaluateCriterionWithRetry critA [secA] "u" llmOkThird).attempts = 3 :=
  C5_retry_accounting critA [secA] "u" llmOkThird "boom" "boom" rawRoundtrip rfl rfl rfl rfl

/-- C5 counterexample: the third LLM call succeeds at the transport level
(body `null`), yet the returned result has status "error", not
"completed" — refuting the claim that a transport-successful third call
always yields `status="completed"`. -/
theorem C5_counterexample :
    llmNullThird 2 (buildRetryPrompt critA [secA] "u") = .ok "null" ∧
    (evaluateCriterionWithRetry critA [secA] "u" llmNullThird).status = "error" ∧
    (evaluateCriterionWithRetry critA [secA] "u" llmNullThird).status ≠ "completed" ∧
    (evaluateCriterionWithRetry critA [secA] "u" llmNullThird).attempts = 3 :=
  ⟨rfl, rfl, by decide, rfl⟩

/-- C6: whenever `validateRequest` reports an invalid request, the
`/api/evaluate` handler answers 400 carrying exactly the itemized error
list, and the LLM service is never invoked. -/
theorem C6_validation_failure_no_llm
    (cfg : Config) (isURL : String → Bool) (evalOutcome : Except String Unit)
    (body : JSVal) (v : VOut)
    (hv : validateRequest cfg isURL body = .ok v) (hinv : v.isValid = false) :
    handleEvaluate cfg isURL evalOutcome body = ⟨400, v.errors, false⟩ := by
  unfold handleEvaluate
  rw [hv]
  simp [hinv]

theorem C6_validation_failure_witness :
    handleEvaluate cfgDefault uTrue (.ok ()) bodyMulti =
      ⟨400, ["websiteUrl is required and must be a string",
             "selectedSections is required and must be a non-empty array",
             "criteria is required and must be a non-empty array"], false⟩ :=
  C6_validation_failure_no_llm cfgDefault uTrue (.ok ()) bodyMulti
    ⟨false, ["websiteUrl is required and must be a string",
             "selectedSections is required and must be a non-empty array",
             "criteria is required and must be a non-empty array"]⟩ rfl rfl

theorem tokAt_mem {cs : List Char} {t : String} (h : tokAt cs = some t) :
    t = "HIGH" ∨ t = "MEDIUM" ∨ t = "LOW" := by
  unfold tokAt at h
  cases h₁ : matchCI "HIGH".data cs with
  | some r => rw [h₁] at h; cases h; exact Or.inl rfl
  | none =>
    rw [h₁] at h
    cases h₂ : matchCI "MEDIUM".data cs with
    | some r => rw [h₂] at h; cases h; exact Or.inr (Or.inl rfl)
    | none =>
      rw [h₂] at h
      cases h₃ : matchCI "LOW".data cs with
      | some r => rw [h₃] at h; cases h; exact Or.inr (Or.inr rfl)
      | none => rw [h₃] at h; cases h

theorem alignSearch_mem : ∀ {cs : List Char} {t : String}, alignSearch cs = some t →
    t = "HIGH" ∨ t = "MEDIUM" ∨ t = "LOW" := by
  intro cs
  induction cs with
  | nil => intro t h; cases h
  | cons c rest ih =>
    intro t h
    rw [alignSearch] at h
    cases ha : alignAt (c :: rest) with
    | some u =>
      rw [ha] at h
      cases h
      unfold alignAt at ha
      cases hm : matchCI "ALIGNMENT:".data (c :: rest) with
      | none => rw [hm] at ha; cases ha
      | some r => rw [hm] at ha; exact tokAt_mem ha
    | none => rw [ha] at h; exact ih h

theorem matchCI_tail : ∀ (pat cs r : List Char), matchCI pat cs = some r →
    ∃ n, r = cs.drop n := by
  intro pat
  induction pat with
  | nil => intro cs r h; cases h; exact ⟨0, rfl⟩
  | cons p ps ih =>
    intro cs r h
    cases cs with
    | nil => cases h
    | cons c cs' =>
      rw [matchCI] at h
      by_cases hc : upChar p = upChar c
      · rw [if_pos hc] at h
        obtain ⟨n, hn⟩ := ih cs' r h
        exact ⟨n + 1, hn⟩
      · rw [if_neg hc] at h; cases h

theorem dropWhileW_tail (p : Char → Bool) : ∀ l : List Char, ∃ n, dropWhileW p l = l.drop n := by
  intro l
  induction l with
  | nil => exact ⟨0, rfl⟩
  | cons c t ih =>
    rw [dropWhileW]
    by_cases hc : p c
    · rw [if_pos hc]
      obtain ⟨n, hn⟩ := ih
      exact ⟨n + 1, hn⟩
    · rw [if_neg hc]
      exact ⟨0, rfl⟩

theorem containsTok_drop : ∀ (l : List Char), containsTok l = false →
    ∀ n, containsTok (l.drop n) = false := by
  intro l
  induction l with
  | nil => intro _ n; cases n <;> rfl
  | cons c t ih =>
    intro h n
    rw [containsTok, Bool.or_eq_false_iff] at h
    cases n with
    | zero => rw [List.drop_zero, containsTok, Bool.or_eq_false_iff]; exact h
    | succ m => exact ih h.2 m

theorem tokAt_containsTok {cs : List Char} {t : String} (h : tokAt cs = some t) :
    containsTok cs = true := by
  cases cs with
  | nil => rw [show tokAt [] = none from rfl] at h; cases h
  | cons c rest => rw [containsTok, h]; rfl

theorem alignAt_none {cs : List Char} (h : containsTok cs = false) : alignAt cs = none := by
  cases ha : alignAt cs with
  | none => rfl
  | some t =>
    exfalso
    unfold alignAt at ha
    cases hm : matchCI "ALIGNMENT:".data cs with
    | none => rw [hm] at ha; cases ha
    | some r =>
      rw [hm] at ha
      obtain ⟨n, hn⟩ := matchCI_tail _ _ _ hm
      obtain ⟨m, hmm⟩ := dropWhileW_tail jsWsChar r
      have hdrop : dropWhileW jsWsChar r = cs.drop (n + m) := by
        rw [hmm, hn, List.drop_drop, Nat.add_comm]
      have : containsTok (cs.drop (n + m)) = true := by
        rw [← hdrop]; exact tokAt_containsTok ha
      rw [containsTok_drop cs h (n + m)] at this
      cases this

theorem alignSearch_none : ∀ {cs : List Char}, containsTok cs = false →
    alignSearch cs = none := by
  intro cs
  induction cs with
  | nil => intro _; rfl
  | cons c rest ih =>
    intro h
    have h' := h
    rw [containsTok, Bool.or_eq_false_iff] at h'
    rw [alignSearch, alignAt_none h]
    exact ih h'.2

/-- C2 counterexample: the model text `{"alignment":"banana","reasoning":"r"}`
normalizes to alignment "BANANA" — the Normalizer passes the uppercased
JSON value through without coercing into {HIGH, MEDIUM, LOW}. -/
theorem C2_counterexample :
    (parseLLMResponse rawBanana).alignment = "BANANA" ∧
    (parseLLMResponse rawBanana).alignment ∉ (["HIGH", "MEDIUM", "LOW"] : List String) :=
  ⟨rfl, by decide⟩

/-- C2 (amended): the three-value invariant holds exactly when the strict
JSON path fails (no extractable JSON object with truthy alignment and
reasoning whose alignment is a string): the fallback parser only ever
produces HIGH, MEDIUM or LOW.  On the JSON path the alignment is the
uppercased raw string from the model and may lie outside the set. -/
theorem C2_alignment_set_on_fallback (raw : String)
    (h : parseLLMResponseJson raw = none) :
    (parseLLMResponse raw).alignment ∈ (["HIGH", "MEDIUM", "LOW"] : List String) := by
  unfold parseLLMResponse
  rw [h]
  unfold fallbackResponseParsing
  cases ha : alignSearch raw.data with
  | none => simp [Option.getD]
  | some t =>
    rcases alignSearch_mem ha with h | h | h <;> simp [Option.getD, h]

theorem C2_alignment_set_witness :
    (parseLLMResponse "no json here").alignment ∈ (["HIGH", "MEDIUM", "LOW"] : List String) :=
  C2_alignment_set_on_fallback "no json here" rfl

/-- C3 counterexample: on the raw text `hello` — which contains no alignment
token — the retry-loop normalizer resolves to alignment HIGH, not MEDIUM
(its structured fallback at llmService.js lines 960-964 defaults to HIGH). -/
theorem C3_counterexample :
    containsTok "hello".data = false ∧
    (evaluateCriterionWithRetry critA [secA] "u" (fun _ _ => .ok "hello")).alignment =
      .str "HIGH" ∧
    (evaluateCriterionWithRetry critA [secA] "u" (fun _ _ => .ok "hello")).status =
      "completed" ∧
    (evaluateCriterionWithRetry critA [secA] "u" (fun _ _ => .ok "hello")).alignment ≠
      .str "MEDIUM" := by
  refine ⟨rfl, rfl, rfl, ?_⟩
  intro h
  rw [show (evaluateCriterionWithRetry critA [secA] "u" (fun _ _ => .ok "hello")).alignment =
    JSVal.str "HIGH" from rfl] at h
  exact absurd (JSVal.str.inj h) (by decide)

/-- C3 (amended): when no alignment token occurs in the raw text, the
WatsonxService fallback parser defaults to MEDIUM; the retry loop's inline
fallback instead defaults the alignment to HIGH (keeping the fence-stripped
trimmed raw text as reasoning), and neither path raises an error — with the
retry loop completing the attempt (`status = "completed"`). -/
theorem C3_no_token_defaults (raw : String) (crit : Criterion)
    (sections : List PageSection) (websiteUrl : String)
    (htok : containsTok raw.data = false) (hcore : retryParseCore raw = none) :
    (fallbackResponseParsing raw).alignment = "MEDIUM" ∧
    retryParse raw = retryDefault raw ∧
    jsGetP (retryParse raw) "alignment" = .str "HIGH" ∧
    (evaluateCriterionWithRetry crit sections websiteUrl (fun _ _ => .ok raw)).status =
      "completed" := by
  have hfb : (fallbackResponseParsing raw).alignment = "MEDIUM" := by
    unfold fallbackResponseParsing
    rw [alignSearch_none htok]
    rfl
  have hrp : retryParse raw = retryDefault raw := by
    unfold retryParse
    rw [hcore]
  have hal : jsGetP (retryParse raw) "alignment" = .str "HIGH" := by
    rw [hrp]
    rfl
  have ha : ∃ r, retryAttempt crit sections websiteUrl (fun _ _ => .ok raw) 0 = .ok r := by
    unfold retryAttempt
    dsimp only
    rw [hrp]
    exact ⟨_, rfl⟩
  obtain ⟨r, har⟩ := ha
  have key : evaluateCriterionWithRetry crit sections websiteUrl (fun _ _ => .ok raw) = r := by
    unfold evaluateCriterionWithRetry
    rw [retryGo.eq_def]; dsimp only; rw [har]
  exact ⟨hfb, hrp, hal, key ▸ (retryAttempt_ok_fields har).2.1⟩

theorem C3_no_token_defaults_witness :
    (fallbackResponseParsing "hello").alignment = "MEDIUM" ∧
    retryParse "hello" = retryDefault "hello" ∧
    jsGetP (retryParse "hello") "alignment" = .str "HIGH" ∧
    (evaluateCriterionWithRetry critA [secA] "u" (fun _ _ => .ok "hello")).status =
      "completed" :=
  C3_no_token_defaults "hello" critA [secA] "u" rfl rfl
theorem mkVOut_iff (es : List String) :
    (mkVOut es).isValid = true ↔ (mkVOut es).errors = [] := by
  cases es <;> simp [mkVOut]

theorem secSafe_content {sec : JSVal} (h : secSafe sec = true) :
    isNullish sec = false ∧
      (jsTruthy sec = true → jsTypeof sec = "object" →
        isNullish (jsGetP sec "content") = false) := by
  unfold secSafe at h
  rw [Bool.and_eq_true] at h
  refine ⟨by simpa using h.1, fun ht hty => ?_⟩
  have h2 := h.2
  rw [if_pos (by rw [ht, hty]; simp)] at h2
  simpa using h2

theorem sectionErrs_ok (cfg : Config) (i : Nat) (sec : JSVal) (h : secSafe sec = true) :
    ∃ es, sectionErrs cfg i sec = .ok es := by
  unfold sectionErrs
  by_cases hc : jsTruthy sec ∧ jsTypeof sec = "object"
  · rw [if_neg (by simpa using hc)]
    have hcont : isNullish (jsGetP sec "content") = false :=
      (secSafe_content h).2 hc.1 hc.2
    rw [jsGetE_ok "length" hcont]
    exact ⟨_, rfl⟩
  · rw [if_pos (by simpa using hc)]
    exact ⟨_, rfl⟩

theorem sectionsErrs_ok (cfg : Config) :
    ∀ (xs : List JSVal), xs.all secSafe = true → ∀ i, ∃ es, sectionsErrs cfg i xs = .ok es := by
  intro xs
  induction xs with
  | nil => intro _ i; exact ⟨[], rfl⟩
  | cons x rest ih =>
    intro h i
    rw [List.all_cons, Bool.and_eq_true] at h
    obtain ⟨e, he⟩ := sectionErrs_ok cfg i x h.1
    obtain ⟨es, hes⟩ := ih h.2 (i + 1)
    refine ⟨e ++ es, ?_⟩
    rw [sectionsErrs, he, hes]

theorem totalAcc_ok :
    ∀ (xs : List JSVal), xs.all secSafe = true → ∀ acc, ∃ a, totalAcc acc xs = .ok a := by
  intro xs
  induction xs with
  | nil => intro _ acc; exact ⟨acc, rfl⟩
  | cons x rest ih =>
    intro h acc
    rw [List.all_cons, Bool.and_eq_true] at h
    have hx : isNullish x = false := (secSafe_content h.1).1
    obtain ⟨a, ha⟩ := ih h.2
      (if jsTruthy (jsGetP x "content") then jsAccAdd acc (jsGetP (jsGetP x "content") "length")
       else jsAccAdd acc (.num 0))
    refine ⟨a, ?_⟩
    rw [totalAcc, jsGetE_ok "content" hx]
    exact ha

theorem selSectionsBlock_ok (cfg : Config) (ss : JSVal) (h : ssSafe ss = true) :
    ∃ es, selSectionsBlock cfg ss = .ok es := by
  cases ss with
  | arr xs =>
    unfold ssSafe at h
    simp only [selSectionsBlock]
    by_cases hl : xs.length = 0
    · rw [if_pos hl]; exact ⟨_, rfl⟩
    · rw [if_neg hl]
      obtain ⟨es, hes⟩ := sectionsErrs_ok cfg xs h 0
      rw [hes]
      exact ⟨_, rfl⟩
  | undefined => exact ⟨_, rfl⟩
  | null => exact ⟨_, rfl⟩
  | bool b => exact ⟨_, rfl⟩
  | num q => exact ⟨_, rfl⟩
  | str s => exact ⟨_, rfl⟩
  | obj fs => exact ⟨_, rfl⟩

theorem totalBlock_ok (cfg : Config) (ss : JSVal) (h : ssSafe ss = true) :
    ∃ es, totalBlock cfg ss = .ok es := by
  cases ss with
  | arr xs =>
    unfold ssSafe at h
    simp only [totalBlock]
    obtain ⟨a, ha⟩ := totalAcc_ok xs h (.n 0)
    rw [ha]
    exact ⟨_, rfl⟩
  | undefined => exact ⟨_, rfl⟩
  | null => exact ⟨_, rfl⟩
  | bool b => exact ⟨_, rfl⟩
  | num q => exact ⟨_, rfl⟩
  | str s => exact ⟨_, rfl⟩
  | obj fs => exact ⟨_, rfl⟩

theorem validateRequest_total (cfg : Config) (u : String → Bool) (body : JSVal)
    (h : bodySafe body = true) :
    ∃ v, validateRequest cfg u body = .ok v ∧ (v.isValid = true ↔ v.errors = []) := by
  unfold bodySafe at h
  unfold validateRequest
  by_cases hb : jsTruthy body ∧ jsTypeof body = "object"
  · rw [if_neg (by simpa using hb)]
    obtain ⟨es, hes⟩ := selSectionsBlock_ok cfg (jsGetP body "selectedSections") h
    obtain ⟨ts, hts⟩ := totalBlock_ok cfg (jsGetP body "selectedSections") h
    rw [hes, hts]
    exact ⟨_, rfl, mkVOut_iff _⟩
  · rw [if_pos (by simpa using hb)]
    exact ⟨_, rfl, mkVOut_iff _⟩

theorem urlBlock_example (u : String → Bool) (hu : u "https://example.com" = true) :
    urlBlock u (.str "https://example.com") = [] := by
  unfold urlBlock
  dsimp only
  rw [if_pos (by decide), hu]
  rfl

theorem validateRequest_emptySS (u : String → Bool) (hu : u "https://example.com" = true) :
    validateRequest cfgDefault u bodyEmptySS =
      .ok ⟨false, ["selectedSections is required and must be a non-empty array"]⟩ := by
  have step : validateRequest cfgDefault u bodyEmptySS =
      .ok (mkVOut (urlBlock u (.str "https://example.com") ++
        ["selectedSections is required and must be a non-empty array"] ++ [] ++ [])) := rfl
  rw [step, urlBlock_example u hu]
  rfl

theorem validateRequest_multi (u : String → Bool) :
    validateRequest cfgDefault u bodyMulti =
      .ok ⟨false, ["websiteUrl is required and must be a string",
                   "selectedSections is required and must be a non-empty array",
                   "criteria is required and must be a non-empty array"]⟩ := rfl

theorem validateRequest_names_index (cfg : Config) (u : String → Bool) (content : String)
    (hlen : content.length > cfg.maxContentLength) :
    ∃ v, validateRequest cfg u (bodyWithContent content) = .ok v ∧
      ("selectedSections[0].content exceeds maximum length of " ++
        toString cfg.maxContentLength ++ " characters") ∈ v.errors := by
  have hne : content ≠ "" := by
    intro he
    rw [he] at hlen
    exact absurd hlen (by simp)
  have hgt : jsGTnat (JSVal.num (mkRat (content.length : Int) 1)) cfg.maxContentLength = true := by
    simp only [jsGTnat, natRat, Rat.mkRat_one, decide_eq_true_eq]
    exact_mod_cast hlen
  have e3true : isReqString (JSVal.str content) = true := by
    simp [isReqString, hne]
  have hsec : sectionErrs cfg 0 (.obj [("selector", .str "main"), ("title", .str "T"),
      ("content", .str content)]) =
      .ok ["selectedSections[0].content exceeds maximum length of " ++
        toString cfg.maxContentLength ++ " characters"] := by
    unfold sectionErrs
    rw [if_neg (by simp [jsTruthy, jsTypeof])]
    rw [show jsGetP (JSVal.obj [("selector", .str "main"), ("title", .str "T"),
      ("content", .str content)]) "selector" = .str "main" from rfl]
    rw [show jsGetP (JSVal.obj [("selector", .str "main"), ("title", .str "T"),
      ("content", .str content)]) "title" = .str "T" from rfl]
    rw [show jsGetP (JSVal.obj [("selector", .str "main"), ("title", .str "T"),
      ("content", .str content)]) "content" = .str content from rfl]
    rw [show jsGetE (JSVal.str content) "length" =
      .ok (.num (mkRat (content.length : Int) 1)) from rfl]
    dsimp only
    rw [e3true, hgt]
    rfl
  have hblock : selSectionsBlock cfg (.arr [.obj [("selector", .str "main"),
      ("title", .str "T"), ("content", .str content)]]) =
      .ok ((if 1 > cfg.maxSections then
          ["selectedSections cannot exceed " ++ toString cfg.maxSections ++ " sections"]
        else []) ++
        (["selectedSections[0].content exceeds maximum length of " ++
          toString cfg.maxContentLength ++ " characters"] ++ [])) := by
    simp only [selSectionsBlock]
    rw [if_neg (by simp)]
    rw [sectionsErrs, hsec]
    rfl
  have hsafe : ssSafe (.arr [.obj [("selector", .str "main"), ("title", .str "T"),
      ("content", .str content)]]) = true := rfl
  obtain ⟨ts, hts⟩ := totalBlock_ok cfg _ hsafe
  have step0 : validateRequest cfg u (bodyWithContent content) =
      (match selSectionsBlock cfg (.arr [.obj [("selector", .str "main"),
          ("title", .str "T"), ("content", .str content)]]) with
       | .error e => .error e
       | .ok secErrs =>
         match totalBlock cfg (.arr [.obj [("selector", .str "main"),
             ("title", .str "T"), ("content", .str content)]]) with
         | .error e => .error e
         | .ok totErrs =>
           .ok (mkVOut (urlBlock u (.str "https://example.com") ++ secErrs ++
             criteriaBlock (.arr [goodCritV]) ++ totErrs))) := rfl
  rw [step0, hblock, hts]
  refine ⟨_, rfl, ?_⟩
  simp [mkVOut, List.mem_append]

/-- C7 counterexample: `validateRequest` does not return an
`{isValid, errors}` record on every payload — on a request whose single
section lacks a `content` field it throws a TypeError
(`section.content.length`, validation.js line 52) instead. -/
theorem C7_counterexample :
    validateRequest cfgDefault uTrue bodyNoContent =
      .error "TypeError: Cannot read properties of undefined (reading length)" := rfl

/-- C7 (amended): on every payload whose sections (when `selectedSections`
is an array) are neither nullish nor truthy objects with a nullish
`content`, `validateRequest` returns `{isValid, errors}` with `isValid`
true iff `errors` is empty, collecting all violations: `selectedSections
= []` reports the dedicated message, an over-long single section content
reports the message naming index 0, and a triply-invalid request reports
all three messages.  (A section with a missing or null `content` instead
makes `validateRequest` throw — see the counterexample.) -/
theorem C7_validator_contract :
    (∀ (cfg : Config) (u : String → Bool) (body : JSVal), bodySafe body = true →
      ∃ v, validateRequest cfg u body = .ok v ∧ (v.isValid = true ↔ v.errors = [])) ∧
    (∀ u : String → Bool, u "https://example.com" = true →
      validateRequest cfgDefault u bodyEmptySS =
        .ok ⟨false, ["selectedSections is required and must be a non-empty array"]⟩) ∧
    (∀ (cfg : Config) (u : String → Bool) (content : String),
      content.length > cfg.maxContentLength →
      ∃ v, validateRequest cfg u (bodyWithContent content) = .ok v ∧
        ("selectedSections[0].content exceeds maximum length of " ++
          toString cfg.maxContentLength ++ " characters") ∈ v.errors) ∧
    (∀ u : String → Bool, validateRequest cfgDefault u bodyMulti =
      .ok ⟨false, ["websiteUrl is required and must be a string",
                   "selectedSections is required and must be a non-empty array",
                   "criteria is required and must be a non-empty array"]⟩) :=
  ⟨validateRequest_total, validateRequest_emptySS, validateRequest_names_index,
   validateRequest_multi⟩

theorem C7_validator_contract_witness :
    (∃ v, validateRequest cfgDefault uTrue bodyOK = .ok v ∧
      (v.isValid = true ↔ v.errors = [])) ∧
    validateRequest cfgDefault uTrue bodyEmptySS =
      .ok ⟨false, ["selectedSections is required and must be a non-empty array"]⟩ ∧
    (∃ v, validateRequest cfgSmall uTrue (bodyWithContent "abcd") = .ok v ∧
      ("selectedSections[0].content exceeds maximum length of " ++
        toString cfgSmall.maxContentLength ++ " characters") ∈ v.errors) ∧
    validateRequest cfgDefault uTrue bodyMulti =
      .ok ⟨false, ["websiteUrl is required and must be a string",
                   "selectedSections is required and must be a non-empty array",
                   "criteria is required and must be a non-empty array"]⟩ :=
  ⟨C7_validator_contract.1 cfgDefault uTrue bodyOK rfl,
   C7_validator_contract.2.1 uTrue rfl,
   C7_validator_contract.2.2.1 cfgSmall uTrue "abcd" (by decide),
   C7_validator_contract.2.2.2 uTrue⟩

/-- C10: sanitization does not preserve validity — the request whose single
section content is the one-character string " " is accepted by
`validateRequest`, but its sanitized image (content trimmed to "") is
rejected with the missing-content message. -/
theorem C10_sanitize_breaks_validity (u : String → Bool)
    (hu : u "https://example.com" = true) :
    validateRequest cfgDefault u bodyWsContent = .ok ⟨true, []⟩ ∧
    sanitizeInput bodyWsContent = .ok bodyWsSanitized ∧
    validateRequest cfgDefault u bodyWsSanitized =
      .ok ⟨false, ["selectedSections[0].content is required and must be a string"]⟩ := by
  refine ⟨?_, rfl, ?_⟩
  · have step : validateRequest cfgDefault u bodyWsContent =
        .ok (mkVOut (urlBlock u (.str "https://example.com") ++ [] ++ [] ++ [])) := rfl
    rw [step, urlBlock_example u hu]
    rfl
  · have step : validateRequest cfgDefault u bodyWsSanitized =
        .ok (mkVOut (urlBlock u (.str "https://example.com") ++
          ["selectedSections[0].content is required and must be a string"] ++ [] ++ [])) := rfl
    rw [step, urlBlock_example u hu]
    rfl

theorem C10_sanitize_breaks_validity_witness :
    validateRequest cfgDefault uTrue bodyWsContent = .ok ⟨true, []⟩ ∧
    sanitizeInput bodyWsContent = .ok bodyWsSanitized ∧
    validateRequest cfgDefault uTrue bodyWsSanitized =
      .ok ⟨false, ["selectedSections[0].content is required and must be a string"]⟩ :=
  C10_sanitize_breaks_validity uTrue rfl

theorem dropWhileW_split (p : Char → Bool) :
    ∀ l : List Char, ∃ pre, l = pre ++ dropWhileW p l := by
  intro l
  induction l with
  | nil => exact ⟨[], rfl⟩
  | cons c t ih =>
    rw [dropWhileW]
    by_cases hc : p c
    · rw [if_pos hc]
      obtain ⟨pre, hpre⟩ := ih
      exact ⟨c :: pre, by rw [List.cons_append, ← hpre]⟩
    · rw [if_neg hc]
      exact ⟨[], rfl⟩

theorem dropWhileW_head (p : Char → Bool) :
    ∀ l : List Char, dropWhileW p l = [] ∨
      ∃ c t, dropWhileW p l = c :: t ∧ p c = false := by
  intro l
  induction l with
  | nil => exact Or.inl rfl
  | cons c t ih =>
    rw [dropWhileW]
    by_cases hc : p c
    · rw [if_pos hc]; exact ih
    · rw [if_neg hc]
      exact Or.inr ⟨c, t, rfl, by simpa using hc⟩

theorem dropWhileW_fix (p : Char → Bool) (l : List Char)
    (h : l = [] ∨ ∃ c t, l = c :: t ∧ p c = false) : dropWhileW p l = l := by
  rcases h with h | ⟨c, t, hl, hc⟩
  · rw [h]; rfl
  · rw [hl, dropWhileW, if_neg (by simp [hc])]

theorem trimChars_fix (l : List Char) : trimChars (trimChars l) = trimChars l := by
  unfold trimChars
  set A := dropWhileW jsWsChar l.reverse with hA
  set C := dropWhileW jsWsChar A.reverse with hC
  have hCrev : dropWhileW jsWsChar C.reverse = C.reverse := by
    apply dropWhileW_fix
    cases hcr : C.reverse with
    | nil => exact Or.inl rfl
    | cons c t =>
      refine Or.inr ⟨c, t, rfl, ?_⟩
      obtain ⟨pre, hpre⟩ := dropWhileW_split jsWsChar A.reverse
      rw [← hC] at hpre
      have hAeq : A = C.reverse ++ pre.reverse := by
        calc A = A.reverse.reverse := by rw [List.reverse_reverse]
        _ = (pre ++ C).reverse := by rw [hpre]
        _ = C.reverse ++ pre.reverse := by rw [List.reverse_append]
      rcases dropWhileW_head jsWsChar l.reverse with hnil | ⟨c', t', hct, hc'⟩
      · rw [← hA] at hnil
        rw [hnil] at hAeq
        rw [hcr] at hAeq
        simp at hAeq
      · rw [← hA] at hct
        rw [hct, hcr] at hAeq
        simp only [List.cons_append] at hAeq
        cases hAeq
        exact hc'
  rw [hCrev, List.reverse_reverse]
  apply dropWhileW_fix
  rcases dropWhileW_head jsWsChar A.reverse with hnil | ⟨c, t, hct, hc⟩
  · rw [← hC] at hnil; exact Or.inl hnil
  · rw [← hC] at hct; exact Or.inr ⟨c, t, hct, hc⟩

theorem jsTrim_idem (s : String) : jsTrim (jsTrim s) = jsTrim s := by
  unfold jsTrim
  exact congrArg String.mk (trimChars_fix s.data)

theorem trimOrEmpty_fix {v : JSVal} {a : String} (h : trimOrEmpty v = .ok a) :
    trimOrEmpty (.str a) = .ok a := by
  unfold trimOrEmpty at h
  by_cases ht : jsTruthy v
  · rw [if_pos ht] at h
    unfold jsTrimE at h
    cases v with
    | str s =>
      cases h
      unfold trimOrEmpty
      by_cases he : jsTruthy (JSVal.str (jsTrim s))
      · rw [if_pos he]
        unfold jsTrimE
        dsimp only
        rw [jsTrim_idem]
      · rw [if_neg he]
        have : jsTrim s = "" := by simpa [jsTruthy] using he
        rw [this]
    | undefined => cases h
    | null => cases h
    | bool b => cases h
    | num q => cases h
    | arr xs => cases h
    | obj fs => cases h
  · rw [if_neg ht] at h
    cases h
    rfl

theorem lookupField_setField_self (k : String) (v : JSVal) :
    ∀ fs, lookupField k (setField k v fs) = some v := by
  intro fs
  induction fs with
  | nil => simp [setField, lookupField]
  | cons p rest ih =>
    obtain ⟨k', v'⟩ := p
    rw [setField]
    by_cases hk : k' = k
    · rw [if_pos hk]
      simp [lookupField]
    · rw [if_neg hk]
      rw [lookupField, if_neg hk]
      exact ih

theorem lookupField_setField_other (k : String) (v : JSVal) (k' : String) (hne : k' ≠ k) :
    ∀ fs, lookupField k' (setField k v fs) = lookupField k' fs := by
  intro fs
  induction fs with
  | nil =>
    rw [show setField k v [] = [(k, v)] from rfl]
    simp [lookupField, Ne.symm hne]
  | cons p rest ih =>
    obtain ⟨a, b⟩ := p
    rw [setField]
    by_cases ha : a = k
    · rw [if_pos ha]
      subst ha
      rw [lookupField, lookupField, if_neg (Ne.symm hne), if_neg (Ne.symm hne)]
    · rw [if_neg ha]
      rw [lookupField, lookupField]
      by_cases hak : a = k'
      · rw [if_pos hak, if_pos hak]
      · rw [if_neg hak, if_neg hak]
        exact ih

theorem setField_lookup_self (k : String) (v : JSVal) :
    ∀ fs, lookupField k fs = some v → setField k v fs = fs := by
  intro fs
  induction fs with
  | nil => intro h; cases h
  | cons p rest ih =>
    obtain ⟨a, b⟩ := p
    intro h
    rw [lookupField] at h
    rw [setField]
    by_cases ha : a = k
    · rw [if_pos ha] at h ⊢
      cases h
      rw [ha]
    · rw [if_neg ha] at h ⊢
      rw [ih h]

theorem jsGetP_ne_undef_lookup {fs : List (String × JSVal)} {k : String}
    (h : jsGetP (.obj fs) k ≠ .undefined) :
    lookupField k fs = some (jsGetP (.obj fs) k) := by
  have hg : jsGetP (.obj fs) k = (lookupField k fs).getD .undefined := rfl
  cases hl : lookupField k fs with
  | none => rw [hg, hl] at h; simp at h
  | some v => rw [hg, hl]; rfl

theorem objSet_id {fs : List (String × JSVal)} {k : String} {v : JSVal}
    (h : jsGetP (.obj fs) k = v) (hne : v ≠ .undefined) :
    objSet (.obj fs) k v = .obj fs := by
  unfold objSet
  dsimp only
  rw [setField_lookup_self k v fs (by rw [← h] at hne ⊢; exact jsGetP_ne_undef_lookup hne)]

theorem mapExcept_fix {f : JSVal → Except String JSVal}
    (hf : ∀ x y, f x = .ok y → f y = .ok y) :
    ∀ {xs ys : List JSVal}, mapExcept f xs = .ok ys → mapExcept f ys = .ok ys := by
  intro xs
  induction xs with
  | nil =>
    intro ys h
    cases h
    rfl
  | cons x rest ih =>
    intro ys h
    rw [mapExcept] at h
    cases hx : f x with
    | error e => rw [hx] at h; cases h
    | ok y =>
      rw [hx] at h
      cases hr : mapExcept f rest with
      | error e => rw [hr] at h; cases h
      | ok ys' =>
        rw [hr] at h
        cases h
        rw [mapExcept, hf x y hx, ih hr]

theorem sanitizeSection_fix {sec q : JSVal} (h : sanitizeSection sec = .ok q) :
    sanitizeSection q = .ok q := by
  unfold sanitizeSection at h
  cases h1 : jsGetE sec "selector" with
  | error e => rw [h1] at h; simp at h
  | ok selv =>
    rw [h1] at h; dsimp only at h
    cases h2 : trimOrEmpty selv with
    | error e => rw [h2] at h; simp at h
    | ok sel =>
      rw [h2] at h; dsimp only at h
      cases h3 : jsGetE sec "title" with
      | error e => rw [h3] at h; simp at h
      | ok titv =>
        rw [h3] at h; dsimp only at h
        cases h4 : trimOrEmpty titv with
        | error e => rw [h4] at h; simp at h
        | ok tit =>
          rw [h4] at h; dsimp only at h
          cases h5 : jsGetE sec "content" with
          | error e => rw [h5] at h; simp at h
          | ok conv =>
            rw [h5] at h; dsimp only at h
            cases h6 : trimOrEmpty conv with
            | error e => rw [h6] at h; simp at h
            | ok con =>
              rw [h6] at h; dsimp only at h
              cases h
              unfold sanitizeSection
              rw [show jsGetE (JSVal.obj [("selector", .str sel), ("title", .str tit),
                ("content", .str con)]) "selector" = .ok (.str sel) from rfl]
              dsimp only
              rw [trimOrEmpty_fix h2]
              dsimp only
              rw [show jsGetE (JSVal.obj [("selector", .str sel), ("title", .str tit),
                ("content", .str con)]) "title" = .ok (.str tit) from rfl]
              dsimp only
              rw [trimOrEmpty_fix h4]
              dsimp only
              rw [show jsGetE (JSVal.obj [("selector", .str sel), ("title", .str tit),
                ("content", .str con)]) "content" = .ok (.str con) from rfl]
              dsimp only
              rw [trimOrEmpty_fix h6]

theorem jsIsTrue_bool (b : Bool) : jsIsTrue (.bool b) = b := by
  cases b <;> rfl

theorem sanitizeCriterion_fix {c q : JSVal} (h : sanitizeCriterion c = .ok q) :
    sanitizeCriterion q = .ok q := by
  unfold sanitizeCriterion at h
  cases h1 : jsGetE c "id" with
  | error e => rw [h1] at h; simp at h
  | ok idv =>
    rw [h1] at h; dsimp only at h
    cases h2 : trimOrEmpty idv with
    | error e => rw [h2] at h; simp at h
    | ok idt =>
      rw [h2] at h; dsimp only at h
      cases h3 : jsGetE c "name" with
      | error e => rw [h3] at h; simp at h
      | ok nv =>
        rw [h3] at h; dsimp only at h
        cases h4 : trimOrEmpty nv with
        | error e => rw [h4] at h; simp at h
        | ok nm =>
          rw [h4] at h; dsimp only at h
          cases h5 : jsGetE c "definition" with
          | error e => rw [h5] at h; simp at h
          | ok dv =>
            rw [h5] at h; dsimp only at h
            cases h6 : trimOrEmpty dv with
            | error e => rw [h6] at h; simp at h
            | ok df =>
              rw [h6] at h; dsimp only at h
              cases h7 : jsGetE c "selected" with
              | error e => rw [h7] at h; simp at h
              | ok sv =>
                rw [h7] at h; dsimp only at h
                cases h
                unfold sanitizeCriterion
                rw [show jsGetE (JSVal.obj [("id", .str idt), ("name", .str nm),
                  ("definition", .str df), ("selected", .bool (jsIsTrue sv))]) "id" =
                  .ok (.str idt) from rfl]
                dsimp only
                rw [trimOrEmpty_fix h2]
                dsimp only
                rw [show jsGetE (JSVal.obj [("id", .str idt), ("name", .str nm),
                  ("definition", .str df), ("selected", .bool (jsIsTrue sv))]) "name" =
                  .ok (.str nm) from rfl]
                dsimp only
                rw [trimOrEmpty_fix h4]
                dsimp only
                rw [show jsGetE (JSVal.obj [("id", .str idt), ("name", .str nm),
                  ("definition", .str df), ("selected", .bool (jsIsTrue sv))]) "definition" =
                  .ok (.str df) from rfl]
                dsimp only
                rw [trimOrEmpty_fix h6]
                dsimp only
                rw [show jsGetE (JSVal.obj [("id", .str idt), ("name", .str nm),
                  ("definition", .str df), ("selected", .bool (jsIsTrue sv))]) "selected" =
                  .ok (.bool (jsIsTrue sv)) from rfl]
                dsimp only
                rw [jsIsTrue_bool]

theorem jsGetP_setField_self (fs : List (String × JSVal)) (k : String) (v : JSVal) :
    jsGetP (.obj (setField k v fs)) k = v := by
  have : jsGetP (.obj (setField k v fs)) k = (lookupField k (setField k v fs)).getD .undefined := rfl
  rw [this, lookupField_setField_self]
  rfl

theorem jsGetP_setField_other (fs : List (String × JSVal)) (k : String) (v : JSVal)
    (k' : String) (h : k' ≠ k) :
    jsGetP (.obj (setField k v fs)) k' = jsGetP (.obj fs) k' := by
  have h1 : jsGetP (.obj (setField k v fs)) k' =
      (lookupField k' (setField k v fs)).getD .undefined := rfl
  have h2 : jsGetP (.obj fs) k' = (lookupField k' fs).getD .undefined := rfl
  rw [h1, h2, lookupField_setField_other k v k' h]

theorem jsSpread_obj (v : JSVal) : ∃ fs, jsSpread v = .obj fs := by
  cases v <;> exact ⟨_, rfl⟩

theorem jsTrimE_ok {v : JSVal} {t : String} (h : jsTrimE v = .ok t) :
    ∃ s, v = .str s ∧ t = jsTrim s := by
  cases v with
  | str s => cases h; exact ⟨s, rfl, rfl⟩
  | undefined => cases h
  | null => cases h
  | bool b => cases h
  | num q => cases h
  | arr xs => cases h
  | obj fs => cases h

theorem sanitizeUrlStep_inv {fs : List (String × JSVal)} {r : JSVal}
    (h : sanitizeUrlStep (.obj fs) = .ok r) :
    (jsTruthy (jsGetP (.obj fs) "websiteUrl") = false ∧ r = .obj fs) ∨
    (∃ s, jsGetP (.obj fs) "websiteUrl" = .str s ∧
      r = .obj (setField "websiteUrl" (.str (jsTrim s)) fs)) := by
  unfold sanitizeUrlStep at h
  by_cases ht : jsTruthy (jsGetP (.obj fs) "websiteUrl")
  · rw [if_pos ht] at h
    cases he : jsTrimE (jsGetP (.obj fs) "websiteUrl") with
    | error e => rw [he] at h; simp at h
    | ok t =>
      rw [he] at h; dsimp only at h
      cases h
      obtain ⟨s, hv, htt⟩ := jsTrimE_ok he
      exact Or.inr ⟨s, hv, by rw [htt]; rfl⟩
  · rw [if_neg ht] at h
    cases h
    exact Or.inl ⟨by simpa using ht, rfl⟩

theorem sanitizeSectionsStep_inv {fs : List (String × JSVal)} {r : JSVal}
    (h : sanitizeSectionsStep (.obj fs) = .ok r) :
    ((∀ xs, jsGetP (.obj fs) "selectedSections" ≠ .arr xs) ∧ r = .obj fs) ∨
    (∃ xs ys, jsGetP (.obj fs) "selectedSections" = .arr xs ∧
      mapExcept sanitizeSection xs = .ok ys ∧
      r = .obj (setField "selectedSections" (.arr ys) fs)) := by
  unfold sanitizeSectionsStep at h
  cases hv : jsGetP (.obj fs) "selectedSections" with
  | arr xs =>
    rw [hv] at h; dsimp only at h
    cases hm : mapExcept sanitizeSection xs with
    | error e => rw [hm] at h; simp at h
    | ok ys =>
      rw [hm] at h; dsimp only at h
      cases h
      exact Or.inr ⟨xs, ys, rfl, hm, rfl⟩
  | undefined => rw [hv] at h; dsimp only at h; cases h; exact Or.inl ⟨(by intro xs hx; cases hx), rfl⟩
  | null => rw [hv] at h; dsimp only at h; cases h; exact Or.inl ⟨(by intro xs hx; cases hx), rfl⟩
  | bool b => rw [hv] at h; dsimp only at h; cases h; exact Or.inl ⟨(by intro xs hx; cases hx), rfl⟩
  | num q => rw [hv] at h; dsimp only at h; cases h; exact Or.inl ⟨(by intro xs hx; cases hx), rfl⟩
  | str s => rw [hv] at h; dsimp only at h; cases h; exact Or.inl ⟨(by intro xs hx; cases hx), rfl⟩
  | obj gs => rw [hv] at h; dsimp only at h; cases h; exact Or.inl ⟨(by intro xs hx; cases hx), rfl⟩

theorem sanitizeCriteriaStep_inv {fs : List (String × JSVal)} {r : JSVal}
    (h : sanitizeCriteriaStep (.obj fs) = .ok r) :
    ((∀ cs, jsGetP (.obj fs) "criteria" ≠ .arr cs) ∧ r = .obj fs) ∨
    (∃ cs ds, jsGetP (.obj fs) "criteria" = .arr cs ∧
      mapExcept sanitizeCriterion cs = .ok ds ∧
      r = .obj (setField "criteria" (.arr ds) fs)) := by
  unfold sanitizeCriteriaStep at h
  cases hv : jsGetP (.obj fs) "criteria" with
  | arr cs =>
    rw [hv] at h; dsimp only at h
    cases hm : mapExcept sanitizeCriterion cs with
    | error e => rw [hm] at h; simp at h
    | ok ds =>
      rw [hm] at h; dsimp only at h
      cases h
      exact Or.inr ⟨cs, ds, rfl, hm, rfl⟩
  | undefined => rw [hv] at h; dsimp only at h; cases h; exact Or.inl ⟨(by intro cs hx; cases hx), rfl⟩
  | null => rw [hv] at h; dsimp only at h; cases h; exact Or.inl ⟨(by intro cs hx; cases hx), rfl⟩
  | bool b => rw [hv] at h; dsimp only at h; cases h; exact Or.inl ⟨(by intro cs hx; cases hx), rfl⟩
  | num q => rw [hv] at h; dsimp only at h; cases h; exact Or.inl ⟨(by intro cs hx; cases hx), rfl⟩
  | str s => rw [hv] at h; dsimp only at h; cases h; exact Or.inl ⟨(by intro cs hx; cases hx), rfl⟩
  | obj gs => rw [hv] at h; dsimp only at h; cases h; exact Or.inl ⟨(by intro cs hx; cases hx), rfl⟩

theorem sanitizeUrlStep_id {fs : List (String × JSVal)}
    (hval : jsTruthy (jsGetP (.obj fs) "websiteUrl") = false ∨
      ∃ t, jsGetP (.obj fs) "websiteUrl" = .str t ∧ jsTrim t = t) :
    sanitizeUrlStep (.obj fs) = .ok (.obj fs) := by
  unfold sanitizeUrlStep
  by_cases ht : jsTruthy (jsGetP (.obj fs) "websiteUrl")
  · rw [if_pos ht]
    rcases hval with hf | ⟨t, hw, htr⟩
    · rw [hf] at ht; cases ht
    · rw [hw]
      unfold jsTrimE
      dsimp only
      rw [htr]
      rw [objSet_id hw (by simp)]
  · rw [if_neg ht]

theorem sanitizeSectionsStep_id {fs : List (String × JSVal)}
    (hval : ∀ xs, jsGetP (.obj fs) "selectedSections" = .arr xs →
      mapExcept sanitizeSection xs = .ok xs) :
    sanitizeSectionsStep (.obj fs) = .ok (.obj fs) := by
  unfold sanitizeSectionsStep
  cases hv : jsGetP (.obj fs) "selectedSections" with
  | arr xs =>
    dsimp only
    rw [hval xs hv]
    dsimp only
    rw [objSet_id hv (by simp)]
  | undefined => rfl
  | null => rfl
  | bool b => rfl
  | num q => rfl
  | str s => rfl
  | obj gs => rfl

theorem sanitizeCriteriaStep_id {fs : List (String × JSVal)}
    (hval : ∀ cs, jsGetP (.obj fs) "criteria" = .arr cs →
      mapExcept sanitizeCriterion cs = .ok cs) :
    sanitizeCriteriaStep (.obj fs) = .ok (.obj fs) := by
  unfold sanitizeCriteriaStep
  cases hv : jsGetP (.obj fs) "criteria" with
  | arr cs =>
    dsimp only
    rw [hval cs hv]
    dsimp only
    rw [objSet_id hv (by simp)]
  | undefined => rfl
  | null => rfl
  | bool b => rfl
  | num q => rfl
  | str s => rfl
  | obj gs => rfl

theorem sanitizeInput_fix {body q : JSVal} (h : sanitizeInput body = .ok q) :
    sanitizeInput q = .ok q := by
  unfold sanitizeInput at h
  obtain ⟨f₀, hf₀⟩ := jsSpread_obj body
  rw [hf₀] at h
  cases h1 : sanitizeUrlStep (.obj f₀) with
  | error e => rw [h1] at h; simp at h
  | ok s₁ =>
    rw [h1] at h; dsimp only at h
    obtain ⟨f₁, hf₁⟩ : ∃ gs, s₁ = .obj gs := by
      rcases sanitizeUrlStep_inv h1 with ⟨_, hr⟩ | ⟨s, _, hr⟩
      · exact ⟨f₀, hr⟩
      · exact ⟨_, hr⟩
    subst hf₁
    cases h2 : sanitizeSectionsStep (.obj f₁) with
    | error e => rw [h2] at h; simp at h
    | ok s₂ =>
      rw [h2] at h; dsimp only at h
      obtain ⟨f₂, hf₂⟩ : ∃ gs, s₂ = .obj gs := by
        rcases sanitizeSectionsStep_inv h2 with ⟨_, hr⟩ | ⟨xs, ys, _, _, hr⟩
        · exact ⟨f₁, hr⟩
        · exact ⟨_, hr⟩
      subst hf₂
      obtain ⟨f₃, hf₃⟩ : ∃ gs, q = .obj gs := by
        rcases sanitizeCriteriaStep_inv h with ⟨_, hr⟩ | ⟨cs, ds, _, _, hr⟩
        · exact ⟨f₂, hr⟩
        · exact ⟨_, hr⟩
      subst hf₃
      -- value of "criteria" in the final object, and of the other two keys
      have hcrit : ∀ cs, jsGetP (.obj f₃) "criteria" = .arr cs →
          mapExcept sanitizeCriterion cs = .ok cs := by
        rcases sanitizeCriteriaStep_inv h with ⟨hne, hr⟩ | ⟨cs, ds, hv, hm, hr⟩
        · cases hr
          intro cs hc
          exact absurd hc (hne cs)
        · cases hr
          intro cs' hc
          rw [jsGetP_setField_self] at hc
          cases hc
          exact mapExcept_fix (fun x y hxy => sanitizeCriterion_fix hxy) hm
      have hq_other : ∀ k, k ≠ "criteria" → jsGetP (.obj f₃) k = jsGetP (.obj f₂) k := by
        rcases sanitizeCriteriaStep_inv h with ⟨_, hr⟩ | ⟨cs, ds, hv, hm, hr⟩
        · cases hr; intro k _; rfl
        · cases hr
          intro k hk
          exact jsGetP_setField_other f₂ "criteria" (.arr ds) k hk
      have hsecv : ∀ xs, jsGetP (.obj f₂) "selectedSections" = .arr xs →
          mapExcept sanitizeSection xs = .ok xs := by
        rcases sanitizeSectionsStep_inv h2 with ⟨hne, hr⟩ | ⟨xs, ys, hv, hm, hr⟩
        · cases hr
          intro xs hc
          exact absurd hc (hne xs)
        · cases hr
          intro xs' hc
          rw [jsGetP_setField_self] at hc
          cases hc
          exact mapExcept_fix (fun x y hxy => sanitizeSection_fix hxy) hm
      have h2_other : ∀ k, k ≠ "selectedSections" → jsGetP (.obj f₂) k = jsGetP (.obj f₁) k := by
        rcases sanitizeSectionsStep_inv h2 with ⟨_, hr⟩ | ⟨xs, ys, hv, hm, hr⟩
        · cases hr; intro k _; rfl
        · cases hr
          intro k hk
          exact jsGetP_setField_other f₁ "selectedSections" (.arr ys) k hk
      have hurlv : jsTruthy (jsGetP (.obj f₁) "websiteUrl") = false ∨
          ∃ t, jsGetP (.obj f₁) "websiteUrl" = .str t ∧ jsTrim t = t := by
        rcases sanitizeUrlStep_inv h1 with ⟨hfalse, hr⟩ | ⟨s, hv, hr⟩
        · cases hr
          exact Or.inl hfalse
        · cases hr
          exact Or.inr ⟨jsTrim s, jsGetP_setField_self f₀ "websiteUrl" (.str (jsTrim s)),
            jsTrim_idem s⟩
      -- assemble the second pass
      have hu3 : jsGetP (.obj f₃) "websiteUrl" = jsGetP (.obj f₁) "websiteUrl" := by
        rw [hq_other "websiteUrl" (by decide), h2_other "websiteUrl" (by decide)]
      have hs3 : jsGetP (.obj f₃) "selectedSections" = jsGetP (.obj f₂) "selectedSections" :=
        hq_other "selectedSections" (by decide)
      unfold sanitizeInput
      rw [show jsSpread (.obj f₃) = .obj f₃ from rfl]
      rw [sanitizeUrlStep_id (by rw [hu3]; exact hurlv)]
      dsimp only
      rw [sanitizeSectionsStep_id (by rw [hs3]; exact hsecv)]
      exact sanitizeCriteriaStep_id hcrit

/-- C9: `sanitizeInput` is idempotent — sanitizing an already-sanitized
payload returns it unchanged (and if sanitization of a payload throws, so
does the composition, trivially agreeing). -/
theorem C9_sanitize_idempotent (body : JSVal) :
    (sanitizeInput body >>= sanitizeInput) = sanitizeInput body := by
  cases hsb : sanitizeInput body with
  | error e => rfl
  | ok q =>
    show Except.bind (.ok q) sanitizeInput = .ok q
    exact sanitizeInput_fix hsb
